import Mathlib

/-!
# Particle background (`js/background/background.js`)

A shallow embedding of the particle field of `background.js`.

Numbers are exact rationals (`ℚ`) in place of JavaScript doubles, `null` is
`Option.none`, and `Math.random()` is a stream `rnd : ℕ → ℚ` whose `k`-th
element is the result of the `k`-th call.  The host services (animation frames,
event listeners, resize observers, timers) are explicit state in `World`.
-/

set_option autoImplicit false

namespace ParticleBackground

/-! ## Data model -/

/-- A particle colour: a palette entry (`colors[k]`) or the template string
`hsl(<hue>, 70%, 60%)` built by `generateColor`. -/
inductive Color where
  | named (s : String)
  | hsl (hue : ℚ)
  deriving DecidableEq, Repr

/-- The merged `this.options` object of the constructor. -/
structure Options where
  colorType : String
  colors : List String
  lineType : String
  particleCount : ℕ
  maxDistance : ℚ
  particleSize : ℚ
  lineWidth : ℚ
  opacity : ℚ
  zIndex : ℤ
  velocity : ℚ
  speedVariation : ℚ
  deriving DecidableEq, Repr

/-- The defaults written in the constructor (`{ colorType: 'rainbow', ... }`). -/
def defaultOptions : Options where
  colorType := "rainbow"
  colors := ["#FF6B6B", "#4ECDC4", "#45B7D1"]
  lineType := "gradient"
  particleCount := 80
  maxDistance := 6000
  particleSize := 2
  lineWidth := 1
  opacity := 6 / 10
  zIndex := -1
  velocity := 8 / 10
  speedVariation := 3 / 10

/-- One element of `this.particles`.  `color` is `none` when `generateColor`
returned `undefined`.  The `connections` set of the source is created empty
and never read or written again, so it carries no state. -/
structure Particle where
  id : ℕ
  x : ℚ
  y : ℚ
  vx : ℚ
  vy : ℚ
  color : Option Color
  deriving DecidableEq, Repr

/-- The object `this.mouse`; `none` is JavaScript `null`. -/
structure Mouse where
  x : Option ℚ
  y : Option ℚ
  deriving DecidableEq, Repr

/-- An element of the local array `allPoints` of `drawConnections`: a particle
or the pointer (which has no `color` property). -/
structure Point where
  x : ℚ
  y : ℚ
  color : Option Color
  deriving DecidableEq, Repr

/-- What `ctx.strokeStyle` is set to for one segment: the gradient with its two
colour stops, or the plain colour `p1.color`. -/
inductive StrokeStyle where
  | gradient (stop0 stop1 : Option Color)
  | flat (c : Option Color)
  deriving DecidableEq, Repr

/-- One stroked line of `drawConnections`, with the loop indices `i`, `j` at
which it was drawn. -/
structure Segment where
  i : ℕ
  j : ℕ
  x1 : ℚ
  y1 : ℚ
  x2 : ℚ
  y2 : ℚ
  strokeStyle : StrokeStyle
  lineWidth : ℚ
  deriving DecidableEq, Repr

/-- One `ctx.fillRect` call of `drawParticles`, with the `fillStyle` in force. -/
structure Rect where
  fillStyle : Option Color
  x : ℚ
  y : ℚ
  width : ℚ
  height : ℚ
  deriving DecidableEq, Repr

/-! ## Pure parts of `ParticleBackground` -/

/-- The function `generateColor`, with `r` the result of its `Math.random()`
call.  An index outside the array reads `undefined`. -/
def generateColor (opts : Options) (r : ℚ) : Option Color :=
  if opts.colorType = "custom" then
    let idx : ℤ := Int.floor (r * (opts.colors.length : ℚ))
    if idx < 0 then none else (opts.colors.get? idx.toNat).map Color.named
  else
    some (Color.hsl (r * 360))

/-- The callback of `Array.from` in `initParticles` for index `i`.  Each
particle makes six `Math.random()` calls, in source order: base speed, `x`,
`y`, `vx`, `vy`, colour. -/
def initParticle (opts : Options) (w h : ℚ) (rnd : ℕ → ℚ) (i : ℕ) : Particle :=
  let baseSpeed := opts.velocity * (1 + opts.speedVariation * (rnd (6 * i) - 1 / 2))
  { id := i
    x := rnd (6 * i + 1) * w
    y := rnd (6 * i + 2) * h
    vx := (rnd (6 * i + 3) - 1 / 2) * baseSpeed
    vy := (rnd (6 * i + 4) - 1 / 2) * baseSpeed
    color := generateColor opts (rnd (6 * i + 5)) }

/-- The array built by `initParticles` on a canvas of size `w × h`. -/
def initParticles (opts : Options) (w h : ℚ) (rnd : ℕ → ℚ) : List Particle :=
  (List.range opts.particleCount).map (initParticle opts w h rnd)

/-- The body of the `forEach` of `updateParticles` for one particle. -/
def updateParticle (opts : Options) (w h : ℚ) (p : Particle) : Particle :=
  let x1 := p.x + p.vx * opts.velocity
  let y1 := p.y + p.vy * opts.velocity
  let vx1 := if x1 < 0 ∨ x1 > w then p.vx * (-1) else p.vx
  let vy1 := if y1 < 0 ∨ y1 > h then p.vy * (-1) else p.vy
  { p with x := max 0 (min x1 w), y := max 0 (min y1 h), vx := vx1, vy := vy1 }

/-- The method `updateParticles` on a canvas of size `w × h`. -/
def updateParticles (opts : Options) (w h : ℚ) (ps : List Particle) : List Particle :=
  ps.map (updateParticle opts w h)

/-- Numeric coercion of a coordinate that may be `null` (`null` counts as 0). -/
def toNumber : Option ℚ → ℚ
  | some v => v
  | none => 0

/-- A particle seen as an element of `allPoints`. -/
def Particle.toPoint (p : Particle) : Point :=
  { x := p.x, y := p.y, color := p.color }

/-- The object `this.mouse` seen as an element of `allPoints`. -/
def Mouse.toPoint (m : Mouse) : Point :=
  { x := toNumber m.x, y := toNumber m.y, color := none }

/-- The local array `allPoints`: a copy of the particles, with the pointer pushed
at the end when `this.mouse.x !== null`. -/
def allPoints (ps : List Particle) (m : Mouse) : List Point :=
  if m.x ≠ none then ps.map Particle.toPoint ++ [m.toPoint] else ps.map Particle.toPoint

/-- The value `dx*dx + dy*dy` computed for the pair `(p1, p2)`. -/
def distSq (p1 p2 : Point) : ℚ :=
  let dx := p1.x - p2.x
  let dy := p1.y - p2.y
  dx * dx + dy * dy

/-- The expression `lineWidth * (1 - distSq/maxDistance)` assigned to
`ctx.lineWidth`. -/
def strokeWidth (lineWidth d maxDistance : ℚ) : ℚ :=
  lineWidth * (1 - d / maxDistance)

/-- JavaScript `a || b` on colours: `undefined` and the empty string are falsy. -/
def colorOr (a b : Option Color) : Option Color :=
  match a with
  | none => b
  | some (Color.named "") => b
  | some c => some c

/-- The body of the inner loop of `drawConnections` at indices `i`, `j`: the
segment stroked there, if any. -/
def connect (opts : Options) (i j : ℕ) (p1 p2 : Point) : Option Segment :=
  if distSq p1 p2 < opts.maxDistance then
    some
      { i := i
        j := j
        x1 := p1.x
        y1 := p1.y
        x2 := p2.x
        y2 := p2.y
        strokeStyle :=
          if opts.lineType = "gradient" then
            StrokeStyle.gradient p1.color (colorOr p2.color p1.color)
          else StrokeStyle.flat p1.color
        lineWidth := strokeWidth opts.lineWidth (distSq p1 p2) opts.maxDistance }
  else none

/-- The two nested loops of `drawConnections` over a point array:
`i` from `0`, `j` from `i+1`, both below `pts.length`. -/
def connectAll (opts : Options) (pts : List Point) : List Segment :=
  (List.range pts.length).flatMap fun i =>
    (List.range' (i + 1) (pts.length - (i + 1))).filterMap fun j =>
      match pts.get? i, pts.get? j with
      | some p1, some p2 => connect opts i j p1 p2
      | _, _ => none

/-- The method `drawConnections`: the segments stroked, in drawing order. -/
def drawConnections (opts : Options) (ps : List Particle) (m : Mouse) : List Segment :=
  connectAll opts (allPoints ps m)

/-- The method `drawParticles`: the rectangles filled, in drawing order. -/
def drawParticles (opts : Options) (ps : List Particle) : List Rect :=
  ps.map fun p =>
    { fillStyle := p.color
      x := p.x - opts.particleSize / 2
      y := p.y - opts.particleSize / 2
      width := opts.particleSize
      height := opts.particleSize }


/-- The result of `n` successive calls of `updateParticles`. -/
def ticks (opts : Options) (w h : ℚ) : ℕ → List Particle → List Particle
  | 0, ps => ps
  | n + 1, ps => ticks opts w h n (updateParticles opts w h ps)

/-! ## Host state: elements, listeners, observers, timers, frame requests -/

/-- The closures that `bindEvents` of field `f` registers as DOM listeners:
the stored `this.mouseHandler` and the anonymous `mouseleave` arrow. -/
inductive Handler where
  | mouseHandler (f : ℕ)
  | leaveHandler (f : ℕ)
  deriving DecidableEq, Repr

/-- One entry of an element's event listener list. -/
structure Listener where
  event : String
  handler : Handler
  deriving DecidableEq, Repr

/-- A container element of the document: its content box, the origin of its
bounding rectangle, its listeners and the canvases (by owning field) appended
to it. -/
structure Element where
  clientWidth : ℚ
  clientHeight : ℚ
  left : ℚ
  top : ℚ
  listeners : List Listener
  children : List ℕ
  deriving DecidableEq, Repr

/-- A call recorded on the 2D context of a field's canvas. -/
inductive DrawCmd where
  | clearRect (x y w h : ℚ)
  | stroke (s : Segment)
  | fillRect (r : Rect)
  deriving DecidableEq, Repr

/-- The instance state (`this`) of one `ParticleBackground`.  `frames` counts
the runs of `animate` and `ctxLog` records the context calls they made. -/
structure FieldState where
  container : ℕ
  options : Options
  canvasWidth : ℚ
  canvasHeight : ℚ
  particles : List Particle
  mouse : Mouse
  animationFrame : Option ℕ
  frames : ℕ
  ctxLog : List DrawCmd
  deriving DecidableEq, Repr

/-- A `ResizeObserver` created by `SizeSensor.observe`: the field whose
`resizeCanvas` its callback runs, the elements it observes, and the variable
`timeout` of the `Utils.debounce` closure wrapped around the callback. -/
structure Observer where
  field : ℕ
  observing : List ℕ
  timeout : Option ℕ
  deriving DecidableEq, Repr

/-- A pending `setTimeout` of a debounce closure: its id, the time at which it
is due and the observer whose callback it will run. -/
structure Timer where
  id : ℕ
  due : ℕ
  observer : ℕ
  deriving DecidableEq, Repr

/-- The page: all field instances, the elements, the static map
`SizeSensor.sensors` (element ↦ observer), the observers, the pending timers,
the clock, and the pending animation frame requests `(handle, field)`. -/
structure World where
  fields : List FieldState
  elements : List Element
  sensors : List (ℕ × ℕ)
  observers : List Observer
  timers : List Timer
  nextTimer : ℕ
  now : ℕ
  frameRequests : List (ℕ × ℕ)
  nextHandle : ℕ
  deriving DecidableEq, Repr

/-- Replace the element at index `n` of a list by its image under `g`. -/
def modifyAt {α : Type} (g : α → α) : ℕ → List α → List α
  | _, [] => []
  | 0, a :: l => g a :: l
  | n + 1, a :: l => a :: modifyAt g n l

/-- Apply `g` to the state of field `f`. -/
def World.updField (w : World) (f : ℕ) (g : FieldState → FieldState) : World :=
  { w with fields := modifyAt g f w.fields }

/-- Apply `g` to element `e`. -/
def World.updElement (w : World) (e : ℕ) (g : Element → Element) : World :=
  { w with elements := modifyAt g e w.elements }

/-- Apply `g` to observer `o`. -/
def World.updObserver (w : World) (o : ℕ) (g : Observer → Observer) : World :=
  { w with observers := modifyAt g o w.observers }

/-- Host `requestAnimationFrame(() => this.animate())` for field `f`: the new
world and the handle returned. -/
def requestAnimationFrame (w : World) (f : ℕ) : World × ℕ :=
  ({ w with frameRequests := w.frameRequests ++ [(w.nextHandle, f)]
            nextHandle := w.nextHandle + 1 }, w.nextHandle)

/-- Host `cancelAnimationFrame(handle)`; `undefined` cancels nothing. -/
def cancelAnimationFrame (w : World) (handle : Option ℕ) : World :=
  match handle with
  | none => w
  | some k => { w with frameRequests := w.frameRequests.filter fun r => r.1 ≠ k }

/-- Host `element.addEventListener(event, handler)`: a listener already
present is not added again. -/
def addEventListener (w : World) (e : ℕ) (event : String) (hd : Handler) : World :=
  w.updElement e fun el =>
    if (Listener.mk event hd) ∈ el.listeners then el
    else { el with listeners := el.listeners ++ [Listener.mk event hd] }

/-- Host `element.removeEventListener(event, handler)`. -/
def removeEventListener (w : World) (e : ℕ) (event : String) (hd : Handler) : World :=
  w.updElement e fun el =>
    { el with listeners := el.listeners.filter fun l => l ≠ Listener.mk event hd }

/-- The method `resizeCanvas` of field `f`. -/
def resizeCanvas (w : World) (f : ℕ) : World :=
  match w.fields.get? f with
  | none => w
  | some fld =>
    match w.elements.get? fld.container with
    | none => w
    | some el =>
      w.updField f fun s =>
        { s with canvasWidth := el.clientWidth, canvasHeight := el.clientHeight }

/-- `Map.prototype.set` on the association list of `SizeSensor.sensors`. -/
def mapSet (m : List (ℕ × ℕ)) (k v : ℕ) : List (ℕ × ℕ) :=
  if m.any (fun kv => kv.1 = k) then m.map fun kv => if kv.1 = k then (k, v) else kv
  else m ++ [(k, v)]

/-- `Map.prototype.get` on the association list of `SizeSensor.sensors`. -/
def mapGet (m : List (ℕ × ℕ)) (k : ℕ) : Option ℕ :=
  (m.find? fun kv => kv.1 = k).map Prod.snd

/-- `Map.prototype.delete` on the association list of `SizeSensor.sensors`. -/
def mapDelete (m : List (ℕ × ℕ)) (k : ℕ) : List (ℕ × ℕ) :=
  m.filter fun kv => kv.1 ≠ k

/-- The static method `SizeSensor.observe(element, callback)` where `callback`
is `() => this.resizeCanvas()` of field `f`: a new observer is created,
starts observing `element`, and is stored under `element` in the map. -/
def SizeSensor.observe (w : World) (element f : ℕ) : World :=
  { w with observers := w.observers ++ [{ field := f, observing := [element], timeout := none }]
           sensors := mapSet w.sensors element w.observers.length }

/-- The static method `SizeSensor.unobserve(element)`. -/
def SizeSensor.unobserve (w : World) (element : ℕ) : World :=
  match mapGet w.sensors element with
  | some sensor =>
    { w.updObserver sensor (fun o => { o with observing := [] }) with
      sensors := mapDelete w.sensors element }
  | none => w

/-- The default `wait` of `Utils.debounce`. -/
def debounceWait : ℕ := 30

/-- One call of the function returned by `Utils.debounce` for observer `o`:
`clearTimeout(timeout)` then `timeout = setTimeout(..., wait)`. -/
def Utils.debounce (w : World) (o : ℕ) : World :=
  match w.observers.get? o with
  | none => w
  | some ob =>
    let cleared := match ob.timeout with
      | none => w.timers
      | some t => w.timers.filter fun tm => tm.id ≠ t
    { w.updObserver o (fun s => { s with timeout := some w.nextTimer }) with
      timers := cleared ++ [{ id := w.nextTimer, due := w.now + debounceWait, observer := o }]
      nextTimer := w.nextTimer + 1 }

/-! ## Methods of `ParticleBackground` on the page state -/

/-- The method `initCanvas` for a new field on `container`: the instance is
created with a fresh canvas (HTML default size 300 × 150), the canvas is
appended to the container and `resizeCanvas` is called.  The new field's index
is `w.fields.length`. -/
def initCanvas (w : World) (container : ℕ) (options : Options) : World :=
  let f := w.fields.length
  let w1 : World :=
    { w with fields := w.fields ++
        [{ container := container, options := options, canvasWidth := 300, canvasHeight := 150,
           particles := [], mouse := { x := none, y := none }, animationFrame := none,
           frames := 0, ctxLog := [] }] }
  let w2 := w1.updElement container fun el => { el with children := el.children ++ [f] }
  resizeCanvas w2 f

/-- The method `initParticles` of field `f`. -/
def initParticlesOf (w : World) (f : ℕ) (rnd : ℕ → ℚ) : World :=
  w.updField f fun s =>
    { s with particles := initParticles s.options s.canvasWidth s.canvasHeight rnd
             mouse := { x := none, y := none } }

/-- The method `bindEvents` of field `f`. -/
def bindEvents (w : World) (f : ℕ) : World :=
  match w.fields.get? f with
  | none => w
  | some fld =>
    let w1 := SizeSensor.observe w fld.container f
    let w2 := addEventListener w1 fld.container "mousemove" (Handler.mouseHandler f)
    addEventListener w2 fld.container "mouseleave" (Handler.leaveHandler f)

/-- The context calls of one `animate` run of a field whose particles have
already been updated: `clearRect`, then the connections, then the particles. -/
def frameCmds (s : FieldState) : List DrawCmd :=
  [DrawCmd.clearRect 0 0 s.canvasWidth s.canvasHeight] ++
    (drawConnections s.options s.particles s.mouse).map DrawCmd.stroke ++
    (drawParticles s.options s.particles).map DrawCmd.fillRect

/-- The state change of `animate` on the instance itself. -/
def animateField (s : FieldState) : FieldState :=
  let s1 := { s with
    particles := updateParticles s.options s.canvasWidth s.canvasHeight s.particles }
  { s1 with frames := s1.frames + 1, ctxLog := s1.ctxLog ++ frameCmds s1 }

/-- The method `animate` of field `f`: clear, update, draw, and request the
next frame; the handle of that request is not stored. -/
def animate (w : World) (f : ℕ) : World :=
  (requestAnimationFrame (w.updField f animateField) f).1

/-- The method `startAnimation` of field `f`. -/
def startAnimation (w : World) (f : ℕ) : World :=
  let r := requestAnimationFrame w f
  r.1.updField f fun s => { s with animationFrame := some r.2 }

/-- The constructor `new ParticleBackground(container, options)`. -/
def construct (w : World) (container : ℕ) (options : Options) (rnd : ℕ → ℚ) : World :=
  let f := w.fields.length
  startAnimation (bindEvents (initParticlesOf (initCanvas w container options) f rnd) f) f

/-- Host `this.canvas.remove()` for the canvas of field `f`. -/
def canvasRemove (w : World) (f : ℕ) : World :=
  match w.fields.get? f with
  | none => w
  | some fld =>
    w.updElement fld.container fun el =>
      { el with children := el.children.filter fun c => c ≠ f }

/-- The method `destroy` of field `f`. -/
def destroy (w : World) (f : ℕ) : World :=
  match w.fields.get? f with
  | none => w
  | some fld =>
    let w1 := cancelAnimationFrame w fld.animationFrame
    let w2 := SizeSensor.unobserve w1 fld.container
    let w3 := removeEventListener w2 fld.container "mousemove" (Handler.mouseHandler f)
    canvasRemove w3 f

/-! ## Host events -/

/-- One display refresh: the frame callbacks pending at its start are run in
order; requests made while they run wait for the next refresh. -/
def runFrame (w : World) : World :=
  w.frameRequests.foldl (fun acc r => animate acc r.2) { w with frameRequests := [] }

/-- The world after `k` display refreshes. -/
def runFrames : ℕ → World → World
  | 0, w => w
  | k + 1, w => runFrames k (runFrame w)

/-- The body of a listener closure, run for an event with pointer coordinates
`(clientX, clientY)`. -/
def runHandler (w : World) (clientX clientY : ℚ) : Handler → World
  | Handler.mouseHandler f =>
    match w.fields.get? f with
    | none => w
    | some fld =>
      match w.elements.get? fld.container with
      | none => w
      | some el =>
        w.updField f fun s =>
          { s with mouse := { x := some (clientX - el.left), y := some (clientY - el.top) } }
  | Handler.leaveHandler f =>
    w.updField f fun s => { s with mouse := { x := none, y := none } }

/-- Host dispatch of a pointer event of type `event` on element `e`: the
listeners registered on `e` for that type run in registration order. -/
def dispatch (w : World) (e : ℕ) (event : String) (clientX clientY : ℚ) : World :=
  match w.elements.get? e with
  | none => w
  | some el =>
    (el.listeners.filter fun l => l.event = event).foldl
      (fun acc l => runHandler acc clientX clientY l.handler) w

/-- A `mousemove` event on element `e`. -/
def mousemove (w : World) (e : ℕ) (clientX clientY : ℚ) : World :=
  dispatch w e "mousemove" clientX clientY

/-- A `mouseleave` event on element `e`. -/
def mouseleave (w : World) (e : ℕ) (clientX clientY : ℚ) : World :=
  dispatch w e "mouseleave" clientX clientY

/-- The box of element `e` changes to `cw × ch`, and every observer observing
`e` has its (debounced) callback called once, in creation order. -/
def resize (w : World) (e : ℕ) (cw ch : ℚ) : World :=
  let w1 := w.updElement e fun el => { el with clientWidth := cw, clientHeight := ch }
  ((List.range w1.observers.length).filter fun o =>
      match w1.observers.get? o with
      | some ob => e ∈ ob.observing
      | none => false).foldl Utils.debounce w1

/-- The clock advances by `dt`; the timers then due fire in creation order, each
running `callback(element)`, that is `resizeCanvas` of the observer's field. -/
def advance (w : World) (dt : ℕ) : World :=
  let t := w.now + dt
  let due := w.timers.filter fun tm => tm.due ≤ t
  let w1 : World := { w with now := t, timers := w.timers.filter fun tm => ¬ tm.due ≤ t }
  due.foldl
    (fun acc tm =>
      match acc.observers.get? tm.observer with
      | some ob => resizeCanvas acc ob.field
      | none => acc)
    w1

/-- A page with the given container elements and nothing else. -/
def World.init (elements : List Element) : World :=
  { fields := [], elements := elements, sensors := [], observers := [], timers := [],
    nextTimer := 1, now := 0, frameRequests := [], nextHandle := 1 }

/-- A container of size `cw × ch` at the origin, without listeners or children. -/
def Element.box (cw ch : ℚ) : Element :=
  { clientWidth := cw, clientHeight := ch, left := 0, top := 0, listeners := [], children := [] }

/-! ## Invariants and sample data used in the statements -/

/-- The frame loop of a page with exactly one field (index 0) is alive: one frame
request with handle `h` is pending, the field has run `c` frames, and its stored
`animationFrame` is still the handle 1 of the first request. -/
def Running (w : World) (c h : ℕ) : Prop :=
  w.frameRequests = [(h, 0)] ∧ w.nextHandle = h + 1 ∧
    ∃ fld, w.fields = [fld] ∧ fld.frames = c ∧ fld.animationFrame = some 1

/-- The options of the end-to-end scenario: three particles, `maxDistance = 1e9`,
`velocity = 0`. -/
def scenarioOptions : Options :=
  { defaultOptions with particleCount := 3, maxDistance := 1000000000, velocity := 0 }

/-- Three particles at fixed positions on an 800 × 600 canvas. -/
def scenarioParticles : List Particle :=
  [{ id := 0, x := 10, y := 20, vx := 0, vy := 0, color := some (Color.hsl 0) },
   { id := 1, x := 400, y := 300, vx := 0, vy := 0, color := some (Color.hsl 120) },
   { id := 2, x := 800, y := 0, vx := 0, vy := 0, color := some (Color.hsl 240) }]

/-- The options passed by the script itself in `new ParticleBackground(document.body, ...)`,
merged over the defaults. -/
def pageOptions : Options :=
  { defaultOptions with
    colorType := "rainbow", lineType := "gradient", particleCount := 80, lineWidth := 2,
    particleSize := 3, maxDistance := 8000, velocity := 12 / 10, speedVariation := 3 / 10,
    zIndex := -1, opacity := 7 / 10 }

/-- The instance state of a field with the default options on an 800 × 600 canvas,
its particles drawn with every random number equal to 1/4. -/
def shrunkField : FieldState :=
  { container := 0, options := defaultOptions, canvasWidth := 800, canvasHeight := 600,
    particles := initParticles defaultOptions 800 600 fun _ => 1 / 4,
    mouse := { x := none, y := none }, animationFrame := some 1, frames := 0, ctxLog := [] }

/-- A page holding `shrunkField` whose container now measures 100 × 100. -/
def shrunkPage : World :=
  { World.init [Element.box 100 100] with fields := [shrunkField] }

/-- The default options switched to the custom palette mode. -/
def customOptions : Options :=
  { defaultOptions with colorType := "custom" }

/-! ## Definitions for the stroke colours, shared containers and size-change bursts -/

/-- JavaScript truthiness of a colour value: `undefined` and the empty string are
falsy, every other string is truthy. -/
def truthy : Option Color → Bool
  | none => false
  | some (Color.named "") => false
  | some _ => true

/-- Gradient mode with a two-entry palette whose second entry is the empty string. -/
def blankPaletteOptions : Options :=
  { defaultOptions with colorType := "custom", colors := ["#FF6B6B", ""] }

/-- Two particles ten units apart, coloured with the two entries of the palette of
`blankPaletteOptions`. -/
def blankPaletteParticles : List Particle :=
  [{ id := 0, x := 10, y := 10, vx := 0, vy := 0, color := some (Color.named "#FF6B6B") },
   { id := 1, x := 20, y := 10, vx := 0, vy := 0, color := some (Color.named "") }]

/-- Two fields (indices 0 and 1) constructed one after the other on the same
fresh container of size `cw × ch`. -/
def sharedPage (cw ch : ℚ) (oA oB : Options) (rA rB : ℕ → ℚ) : World :=
  construct (construct (World.init [Element.box cw ch]) 0 oA rA) 0 oB rB

/-- Two fields (indices 0 and 1) constructed on two different fresh containers
(elements 0 and 1), both of size `cw × ch`. -/
def separatePage (cw ch : ℚ) (oA oB : Options) (rA rB : ℕ → ℚ) : World :=
  construct (construct (World.init [Element.box cw ch, Element.box cw ch]) 0 oA rA) 1 oB rB

/-- The canvas sizes of all fields of the page, in field order. -/
def World.canvasSizes (w : World) : List (ℚ × ℚ) :=
  w.fields.map fun s => (s.canvasWidth, s.canvasHeight)

/-! ## `Utils.debounce` with its arguments and its delay -/

/-- A pending host timer set by a debounced function: its id, the time at which
it is due, and the arguments captured by its callback
`() => func.apply(this, args)`. -/
structure PendingCall (α : Type) where
  id : ℕ
  due : ℕ
  args : α
  deriving DecidableEq, Repr

/-- The function returned by `Utils.debounce(func, wait)` together with the part
of the host it uses: the closure variable `timeout`, the timers it has set that
are still pending, the host's next timer id and clock, and the calls of `func`
made so far, each with the time at which its timer was due and its arguments. -/
structure Debounced (α : Type) where
  wait : ℕ
  timeout : Option ℕ
  pending : List (PendingCall α)
  nextTimer : ℕ
  now : ℕ
  invoked : List (ℕ × α)
  deriving DecidableEq, Repr

/-- The value of `Utils.debounce(func, wait)` at time `now`: `timeout` is still
undefined, nothing is pending, `func` has not been called. -/
def Debounced.create {α : Type} (wait now : ℕ) : Debounced α :=
  { wait := wait, timeout := none, pending := [], nextTimer := 1, now := now, invoked := [] }

/-- One call of the debounced function with arguments `args`:
`clearTimeout(timeout); timeout = setTimeout(() => func.apply(this, args), wait)`. -/
def Debounced.call {α : Type} (d : Debounced α) (args : α) : Debounced α :=
  let cleared := match d.timeout with
    | none => d.pending
    | some t => d.pending.filter fun p => p.id ≠ t
  { d with
    timeout := some d.nextTimer
    pending := cleared ++ [{ id := d.nextTimer, due := d.now + d.wait, args := args }]
    nextTimer := d.nextTimer + 1 }

/-- The clock advances by `dt`; the timers then due fire in the order in which
they were set, each calling `func` with its captured arguments. -/
def Debounced.advance {α : Type} (d : Debounced α) (dt : ℕ) : Debounced α :=
  { d with
    now := d.now + dt
    pending := d.pending.filter fun p => ¬ p.due ≤ d.now + dt
    invoked := d.invoked ++
      (d.pending.filter fun p => p.due ≤ d.now + dt).map fun p => (p.due, p.args) }

/-- Further calls of a burst: each pair `(gap, args)` is a call with arguments
`args` made `gap` time-units after the previous call. -/
def Debounced.burst {α : Type} (d : Debounced α) : List (ℕ × α) → Debounced α
  | [] => d
  | c :: rest => Debounced.burst ((d.advance c.1).call c.2) rest

/-- The arguments of the last call of a burst whose first call had arguments `a0`. -/
def lastArgs {α : Type} (a0 : α) : List (ℕ × α) → α
  | [] => a0
  | c :: rest => lastArgs c.2 rest

/-- The calls of `callback` made through the debounced function that
`SizeSensor.observe(element, callback)` hands to its `ResizeObserver`: its `func`
is `() => { callback(element) }`, so every call of `func`, whatever its
arguments, is one call `callback(element)`. -/
def SizeSensor.callbackCalls {α : Type} (element : ℕ) (d : Debounced α) : List (ℕ × ℕ) :=
  d.invoked.map fun c => (c.1, element)

/-- The debounced function has just been called with arguments `a`: exactly one
timer is pending, it is the one recorded in `timeout`, it carries `a`, and it is
due `wait` after the current time. -/
def Armed {α : Type} (d : Debounced α) (a : α) : Prop :=
  ∃ i, d.pending = [{ id := i, due := d.now + d.wait, args := a }] ∧ d.timeout = some i

/-- Further size changes of a burst on element `e`: each triple
`(gap, (cw, ch))` is a change of the box of `e` to `cw × ch`, notified `gap`
time-units after the previous one. -/
def resizeBurst (w : World) (e : ℕ) : List (ℕ × ℚ × ℚ) → World
  | [] => w
  | c :: rest => resizeBurst (resize (advance w c.1) e c.2.1 c.2.2) e rest

/-- The timers that fire, each running the resize callback of its observer once,
when the clock of `w` advances by `dt`. -/
def World.dueTimers (w : World) (dt : ℕ) : List Timer :=
  w.timers.filter fun tm => tm.due ≤ w.now + dt

/-- The page with one field, built on a fresh `cw0 × ch0` container, at time
`now`, right after the container has been notified to have changed to `cw × ch`:
the canvas still has its old size and the debounce timer `id` is pending. -/
def notifiedPage (cw0 ch0 : ℚ) (opts : Options) (rnd : ℕ → ℚ) (cw ch : ℚ) (id now : ℕ) :
    World :=
  { fields := [{ container := 0, options := opts, canvasWidth := cw0, canvasHeight := ch0,
                 particles := initParticles opts cw0 ch0 rnd,
                 mouse := { x := none, y := none }, animationFrame := some 1,
                 frames := 0, ctxLog := [] }]
    elements := [{ clientWidth := cw, clientHeight := ch, left := 0, top := 0,
                   listeners := [Listener.mk "mousemove" (Handler.mouseHandler 0),
                                 Listener.mk "mouseleave" (Handler.leaveHandler 0)],
                   children := [0] }]
    sensors := [(0, 0)]
    observers := [{ field := 0, observing := [0], timeout := some id }]
    timers := [{ id := id, due := now + debounceWait, observer := 0 }]
    nextTimer := id + 1
    now := now
    frameRequests := [(1, 0)]
    nextHandle := 2 }

/-! ## Definitions for the initial speed, the fixed collection and the drawn squares -/

/-- The local `baseSpeed` of `initParticles`, with `r` the result of its
`Math.random()` call. -/
def baseSpeed (opts : Options) (r : ℚ) : ℚ :=
  opts.velocity * (1 + opts.speedVariation * (r - 1 / 2))

/-- The ids and colours of the particles of a field, in collection order. -/
def FieldState.idsColours (s : FieldState) : List (ℕ × Option Color) :=
  s.particles.map fun p => (p.id, p.color)

/-- The ids and colours of the particles of every field of the page. -/
def World.idsColours (w : World) : List (List (ℕ × Option Color)) :=
  w.fields.map FieldState.idsColours

/-- The rectangle of a context call, if the call is a `fillRect`. -/
def DrawCmd.rect? : DrawCmd → Option Rect
  | DrawCmd.fillRect r => some r
  | _ => none

/-! ## Position bounds (C1) -/

theorem updateParticle_bounds (opts : Options) (w h : ℚ) (hw : 0 ≤ w) (hh : 0 ≤ h)
    (p : Particle) :
    0 ≤ (updateParticle opts w h p).x ∧ (updateParticle opts w h p).x ≤ w ∧
      0 ≤ (updateParticle opts w h p).y ∧ (updateParticle opts w h p).y ≤ h := by
  simp only [updateParticle]
  exact ⟨le_max_left _ _, max_le hw (min_le_right _ _), le_max_left _ _,
    max_le hh (min_le_right _ _)⟩

theorem updateParticles_bounds (opts : Options) (w h : ℚ) (hw : 0 ≤ w) (hh : 0 ≤ h)
    (ps : List Particle) :
    ∀ p ∈ updateParticles opts w h ps, 0 ≤ p.x ∧ p.x ≤ w ∧ 0 ≤ p.y ∧ p.y ≤ h := by
  intro q hq
  obtain ⟨p, -, rfl⟩ := List.mem_map.mp hq
  exact updateParticle_bounds opts w h hw hh p

theorem ticks_bounds (opts : Options) (w h : ℚ) (hw : 0 ≤ w) (hh : 0 ≤ h) :
    ∀ (n : ℕ) (ps : List Particle),
      (∀ p ∈ ps, 0 ≤ p.x ∧ p.x ≤ w ∧ 0 ≤ p.y ∧ p.y ≤ h) →
      ∀ p ∈ ticks opts w h n ps, 0 ≤ p.x ∧ p.x ≤ w ∧ 0 ≤ p.y ∧ p.y ≤ h
  | 0, _, hps => hps
  | n + 1, ps, _ =>
    ticks_bounds opts w h hw hh n _ (updateParticles_bounds opts w h hw hh ps)

theorem initParticles_bounds (opts : Options) (w h : ℚ) (hw : 0 ≤ w) (hh : 0 ≤ h)
    (rnd : ℕ → ℚ) (hr : ∀ k, 0 ≤ rnd k ∧ rnd k < 1) :
    ∀ p ∈ initParticles opts w h rnd, 0 ≤ p.x ∧ p.x ≤ w ∧ 0 ≤ p.y ∧ p.y ≤ h := by
  intro q hq
  obtain ⟨i, -, rfl⟩ := List.mem_map.mp hq
  simp only [initParticle]
  exact ⟨mul_nonneg (hr _).1 hw, mul_le_of_le_one_left hw (hr _).2.le,
    mul_nonneg (hr _).1 hh, mul_le_of_le_one_left hh (hr _).2.le⟩

/-- C1: on a canvas of width `w ≥ 0` and height `h ≥ 0`, every particle created by
`initParticles` from random draws in `[0,1)` lies in `[0,w] × [0,h]`, it still does
after any number `n` of `updateParticles` ticks, and a single tick puts every
particle of an arbitrary collection (any positions, any velocities) inside those
bounds. -/
theorem C1_positions_stay_in_bounds (opts : Options) (w h : ℚ) (hw : 0 ≤ w) (hh : 0 ≤ h) :
    (∀ rnd : ℕ → ℚ, (∀ k, 0 ≤ rnd k ∧ rnd k < 1) → ∀ n : ℕ,
        ∀ p ∈ ticks opts w h n (initParticles opts w h rnd),
          0 ≤ p.x ∧ p.x ≤ w ∧ 0 ≤ p.y ∧ p.y ≤ h) ∧
      (∀ (ps : List Particle) (n : ℕ), ∀ p ∈ ticks opts w h (n + 1) ps,
          0 ≤ p.x ∧ p.x ≤ w ∧ 0 ≤ p.y ∧ p.y ≤ h) ∧
      ∀ ps : List Particle, ∀ p ∈ updateParticles opts w h ps,
          0 ≤ p.x ∧ p.x ≤ w ∧ 0 ≤ p.y ∧ p.y ≤ h :=
  ⟨fun rnd hr n => ticks_bounds opts w h hw hh n _ (initParticles_bounds opts w h hw hh rnd hr),
   fun ps n => ticks_bounds opts w h hw hh n _ (updateParticles_bounds opts w h hw hh ps),
   updateParticles_bounds opts w h hw hh⟩

/-- Witness for C1: the default options on an 800 × 600 canvas, all draws 1/4,
three ticks; and one tick from a particle far outside the canvas. -/
theorem C1_positions_stay_in_bounds_witness :
    (∀ p ∈ ticks defaultOptions 800 600 3 (initParticles defaultOptions 800 600 fun _ => 1 / 4),
        0 ≤ p.x ∧ p.x ≤ 800 ∧ 0 ≤ p.y ∧ p.y ≤ 600) ∧
      ∀ p ∈ updateParticles defaultOptions 800 600
          [{ id := 0, x := -50, y := 9000, vx := 70, vy := -3, color := none }],
        0 ≤ p.x ∧ p.x ≤ 800 ∧ 0 ≤ p.y ∧ p.y ≤ 600 :=
  ⟨(C1_positions_stay_in_bounds defaultOptions 800 600 (by norm_num) (by norm_num)).1
      (fun _ => 1 / 4) (fun _ => by norm_num) 3,
   (C1_positions_stay_in_bounds defaultOptions 800 600 (by norm_num) (by norm_num)).2.2 _⟩


/-! ## The connection pass (C2) -/

theorem connect_some {opts : Options} {i j : ℕ} {p1 p2 : Point} {s : Segment}
    (h : connect opts i j p1 p2 = some s) :
    distSq p1 p2 < opts.maxDistance ∧ s.i = i ∧ s.j = j ∧
      s.x1 = p1.x ∧ s.y1 = p1.y ∧ s.x2 = p2.x ∧ s.y2 = p2.y ∧
      s.lineWidth = strokeWidth opts.lineWidth (distSq p1 p2) opts.maxDistance := by
  unfold connect at h
  split at h
  · rename_i hd
    simp only [Option.some.injEq] at h
    subst h
    exact ⟨hd, rfl, rfl, rfl, rfl, rfl, rfl, rfl⟩
  · simp at h

theorem connect_isSome {opts : Options} {i j : ℕ} {p1 p2 : Point}
    (h : distSq p1 p2 < opts.maxDistance) : ∃ s, connect opts i j p1 p2 = some s := by
  unfold connect
  rw [if_pos h]
  exact ⟨_, rfl⟩

theorem mem_connectAll {opts : Options} {pts : List Point} {s : Segment} :
    s ∈ connectAll opts pts ↔
      s.i < s.j ∧ ∃ p1 p2, pts.get? s.i = some p1 ∧ pts.get? s.j = some p2 ∧
        connect opts s.i s.j p1 p2 = some s := by
  unfold connectAll
  simp only [List.mem_flatMap, List.mem_range, List.mem_filterMap, List.mem_range'_1]
  constructor
  · rintro ⟨i, hi, j, ⟨hij, hj⟩, hs⟩
    split at hs
    · rename_i p1 p2 h1 h2
      obtain ⟨-, rfl, rfl, -⟩ := connect_some hs
      exact ⟨hij, p1, p2, h1, h2, hs⟩
    · simp at hs
  · rintro ⟨hij, p1, p2, h1, h2, hs⟩
    have hi : s.i < pts.length := by
      by_contra hc
      rw [List.get?_eq_none.mpr (not_lt.mp hc)] at h1
      simp at h1
    have hj : s.j < pts.length := by
      by_contra hc
      rw [List.get?_eq_none.mpr (not_lt.mp hc)] at h2
      simp at h2
    refine ⟨s.i, hi, s.j, ⟨hij, by omega⟩, ?_⟩
    simp only [h1, h2]
    exact hs

theorem connectAll_pairwise (opts : Options) (pts : List Point) :
    (connectAll opts pts).Pairwise fun a b => a.i < b.i ∨ (a.i = b.i ∧ a.j < b.j) := by
  unfold connectAll
  rw [List.pairwise_flatMap]
  constructor
  · intro i _
    rw [List.pairwise_filterMap]
    refine List.Pairwise.imp ?_ (List.pairwise_lt_range' (i + 1) (pts.length - (i + 1)))
    intro j j2 hj a ha b hb
    have ea : a.i = i ∧ a.j = j := by
      simp only [Option.mem_def] at ha
      split at ha
      · obtain ⟨-, h1, h2, -⟩ := connect_some ha
        exact ⟨h1, h2⟩
      · simp at ha
    have eb : b.i = i ∧ b.j = j2 := by
      simp only [Option.mem_def] at hb
      split at hb
      · obtain ⟨-, h1, h2, -⟩ := connect_some hb
        exact ⟨h1, h2⟩
      · simp at hb
    right
    omega
  · refine List.Pairwise.imp ?_ (List.pairwise_lt_range pts.length)
    intro i i2 hi a ha b hb
    have ea : a.i = i := by
      simp only [List.mem_filterMap] at ha
      obtain ⟨j, -, ha⟩ := ha
      split at ha
      · exact (connect_some ha).2.1
      · simp at ha
    have eb : b.i = i2 := by
      simp only [List.mem_filterMap] at hb
      obtain ⟨j, -, hb⟩ := hb
      split at hb
      · exact (connect_some hb).2.1
      · simp at hb
    left
    omega


/-- C2: `drawConnections` works on the point list made of all particles, followed
by the pointer when it is present, and strokes one segment for exactly the index
pairs `i < j` of that list whose squared distance `dx*dx + dy*dy` is strictly
below `maxDistance`: every such pair has a segment, every segment comes from such
a pair and joins its two points, no index pair occurs twice, and no segment joins
a point to itself.  The test is on the squared distance itself. -/
theorem C2_connections_are_exactly_the_close_pairs (opts : Options) (ps : List Particle)
    (m : Mouse) :
    allPoints ps m = ps.map Particle.toPoint ++ (if m.x = none then [] else [m.toPoint]) ∧
      (∀ i j : ℕ, (∃ s ∈ drawConnections opts ps m, s.i = i ∧ s.j = j) ↔
        i < j ∧ ∃ p1 p2, (allPoints ps m).get? i = some p1 ∧ (allPoints ps m).get? j = some p2 ∧
          (p1.x - p2.x) * (p1.x - p2.x) + (p1.y - p2.y) * (p1.y - p2.y) < opts.maxDistance) ∧
      ((drawConnections opts ps m).map fun s => (s.i, s.j)).Nodup ∧
      ∀ s ∈ drawConnections opts ps m, s.i ≠ s.j ∧
        ∃ p1 p2, (allPoints ps m).get? s.i = some p1 ∧ (allPoints ps m).get? s.j = some p2 ∧
          s.x1 = p1.x ∧ s.y1 = p1.y ∧ s.x2 = p2.x ∧ s.y2 = p2.y := by
  refine ⟨?_, ?_, ?_, ?_⟩
  · unfold allPoints
    by_cases hm : m.x = none <;> simp [hm]
  · intro i j
    unfold drawConnections
    constructor
    · rintro ⟨s, hs, rfl, rfl⟩
      obtain ⟨hij, p1, p2, h1, h2, hc⟩ := mem_connectAll.mp hs
      exact ⟨hij, p1, p2, h1, h2, (connect_some hc).1⟩
    · rintro ⟨hij, p1, p2, h1, h2, hd⟩
      obtain ⟨s, hs⟩ := @connect_isSome opts i j p1 p2 hd
      obtain ⟨-, hi, hj, -⟩ := connect_some hs
      refine ⟨s, mem_connectAll.mpr ?_, hi, hj⟩
      rw [hi, hj]
      exact ⟨hij, p1, p2, h1, h2, hs⟩
  · unfold List.Nodup drawConnections
    rw [List.pairwise_map]
    refine List.Pairwise.imp ?_ (connectAll_pairwise opts (allPoints ps m))
    intro a b hab heq
    simp only [Prod.mk.injEq] at heq
    omega
  · intro s hs
    obtain ⟨hij, p1, p2, h1, h2, hc⟩ := mem_connectAll.mp hs
    obtain ⟨-, -, -, e1, e2, e3, e4, -⟩ := connect_some hc
    exact ⟨by omega, p1, p2, h1, h2, e1, e2, e3, e4⟩

/-! ## Teardown and the frame loop (C3) -/

/-- The page right after constructing one field on a fresh container. -/
theorem construct_init (cw ch : ℚ) (opts : Options) (rnd : ℕ → ℚ) :
    construct (World.init [Element.box cw ch]) 0 opts rnd =
      { fields := [{ container := 0, options := opts, canvasWidth := cw, canvasHeight := ch,
                     particles := initParticles opts cw ch rnd,
                     mouse := { x := none, y := none }, animationFrame := some 1,
                     frames := 0, ctxLog := [] }]
        elements := [{ clientWidth := cw, clientHeight := ch, left := 0, top := 0,
                       listeners := [Listener.mk "mousemove" (Handler.mouseHandler 0),
                                     Listener.mk "mouseleave" (Handler.leaveHandler 0)],
                       children := [0] }]
        sensors := [(0, 0)]
        observers := [{ field := 0, observing := [0], timeout := none }]
        timers := []
        nextTimer := 1
        now := 0
        frameRequests := [(1, 0)]
        nextHandle := 2 } := by
  rfl


theorem destroy_fields (w : World) (f : ℕ) : (destroy w f).fields = w.fields := by
  unfold destroy
  cases hf : w.fields.get? f with
  | none => rfl
  | some fld =>
    simp only [canvasRemove, removeEventListener, World.updElement, SizeSensor.unobserve,
      cancelAnimationFrame, World.updObserver]
    repeat' split
    all_goals rfl

theorem destroy_frameRequests (w : World) (f : ℕ) (fld : FieldState)
    (hf : w.fields.get? f = some fld) :
    (destroy w f).frameRequests = (cancelAnimationFrame w fld.animationFrame).frameRequests := by
  unfold destroy
  rw [hf]
  simp only [canvasRemove, removeEventListener, World.updElement, SizeSensor.unobserve,
    cancelAnimationFrame, World.updObserver]
  repeat' split
  all_goals rfl

theorem destroy_nextHandle (w : World) (f : ℕ) : (destroy w f).nextHandle = w.nextHandle := by
  unfold destroy
  cases hf : w.fields.get? f with
  | none => rfl
  | some fld =>
    simp only [canvasRemove, removeEventListener, World.updElement, SizeSensor.unobserve,
      cancelAnimationFrame, World.updObserver]
    repeat' split
    all_goals rfl

theorem running_runFrame {w : World} {c h : ℕ} (hr : Running w c h) :
    Running (runFrame w) (c + 1) (h + 1) := by
  obtain ⟨hq, hn, fld, hf, hc, ha⟩ := hr
  refine ⟨?_, ?_, animateField fld, ?_, ?_, ?_⟩
  · simp [runFrame, hq, animate, requestAnimationFrame, World.updField, hn]
  · simp [runFrame, hq, animate, requestAnimationFrame, World.updField, hn]
  · simp [runFrame, hq, animate, requestAnimationFrame, World.updField, hf, modifyAt]
  · simp [animateField, hc]
  · simp [animateField, ha]

theorem running_runFrames {w : World} {c h : ℕ} (hr : Running w c h) :
    ∀ n : ℕ, Running (runFrames n w) (c + n) (h + n)
  | 0 => hr
  | n + 1 => by
    have := running_runFrames (running_runFrame hr) n
    simpa [runFrames, Nat.add_assoc, Nat.add_comm 1 n] using this

theorem running_destroy {w : World} {c h : ℕ} (hr : Running w c h) (hh : h ≠ 1) :
    Running (destroy w 0) c h := by
  obtain ⟨hq, hn, fld, hf, hc, ha⟩ := hr
  refine ⟨?_, ?_, fld, ?_, hc, ha⟩
  · rw [destroy_frameRequests w 0 fld (by simp [hf]), ha]
    simp [cancelAnimationFrame, hq, hh]
  · rw [destroy_nextHandle, hn]
  · rw [destroy_fields, hf]

theorem running_construct (cw ch : ℚ) (opts : Options) (rnd : ℕ → ℚ) :
    Running (construct (World.init [Element.box cw ch]) 0 opts rnd) 0 1 :=
  ⟨rfl, rfl, _, rfl, rfl, rfl⟩

theorem running_frames {w : World} {c h : ℕ} (hr : Running w c h) :
    w.fields.map FieldState.frames = [c] := by
  obtain ⟨-, -, fld, hf, hc, -⟩ := hr
  simp [hf, hc]

theorem runFrames_idle (w : World) (hq : w.frameRequests = []) :
    ∀ n : ℕ, runFrames n w = w
  | 0 => rfl
  | n + 1 => by
    have h1 : runFrame w = w := by
      unfold runFrame
      rw [hq]
      simp only [List.foldl]
      cases w
      simp_all
    simp only [runFrames, h1]
    exact runFrames_idle w hq n

/-- C3 (evaluation of the code): a field is constructed on a fresh container.
If `destroy` is called before any frame has run, `animate` never runs (the frame
count stays 0 over any number `n` of later display refreshes).  If `k + 1` frames
have run before `destroy`, the pending request has handle `k + 2`, not the stored
handle 1, so `destroy` leaves it pending and `animate` keeps running: after `n`
further display refreshes the destroyed field has run `k + 1 + n` frames. -/
theorem C3_destroy_cancels_only_the_first_request (cw ch : ℚ) (opts : Options)
    (rnd : ℕ → ℚ) (k n : ℕ) :
    (runFrames n (destroy (construct (World.init [Element.box cw ch]) 0 opts rnd) 0)).fields.map
        FieldState.frames = [0] ∧
      (runFrames (k + 1) (construct (World.init [Element.box cw ch]) 0 opts rnd)).fields.map
        FieldState.frames = [k + 1] ∧
      (destroy (runFrames (k + 1) (construct (World.init [Element.box cw ch]) 0 opts rnd))
        0).frameRequests = [(k + 2, 0)] ∧
      (runFrames n (destroy (runFrames (k + 1)
        (construct (World.init [Element.box cw ch]) 0 opts rnd)) 0)).fields.map
        FieldState.frames = [k + 1 + n] := by
  have h0 := running_construct cw ch opts rnd
  have hk := running_runFrames h0 (k + 1)
  have hd := running_destroy hk (by omega)
  refine ⟨?_, ?_, ?_, ?_⟩
  · rw [runFrames_idle _ (show (destroy (construct (World.init [Element.box cw ch]) 0 opts rnd)
      0).frameRequests = [] from rfl), destroy_fields]
    rfl
  · simpa using running_frames hk
  · have := hd.1
    simpa [Nat.add_comm, Nat.add_left_comm] using this
  · simpa [Nat.add_comm, Nat.add_left_comm] using running_frames (running_runFrames hd n)


/-! ## Teardown and the listeners (C4) -/

/-- The page after constructing a field on a fresh container, moving the pointer
to `(cx, cy)` and destroying the field. -/
theorem destroyed_state (cw ch : ℚ) (opts : Options) (rnd : ℕ → ℚ) (cx cy : ℚ) :
    destroy (mousemove (construct (World.init [Element.box cw ch]) 0 opts rnd) 0 cx cy) 0 =
      { fields := [{ container := 0, options := opts, canvasWidth := cw, canvasHeight := ch,
                     particles := initParticles opts cw ch rnd,
                     mouse := { x := some (cx - 0), y := some (cy - 0) },
                     animationFrame := some 1, frames := 0, ctxLog := [] }]
        elements := [{ clientWidth := cw, clientHeight := ch, left := 0, top := 0,
                       listeners := [Listener.mk "mouseleave" (Handler.leaveHandler 0)],
                       children := [] }]
        sensors := []
        observers := [{ field := 0, observing := [], timeout := none }]
        timers := []
        nextTimer := 1
        now := 0
        frameRequests := []
        nextHandle := 2 } := by
  rfl

/-- C4 (evaluation of the code): a field is constructed on a fresh container, the
pointer moves to `(cx, cy)`, and the field is destroyed.  After `destroy` the
`mousemove` listener and the resize observation are gone (a later pointer move, or
a later resize followed by any wait, changes no field state), but the `mouseleave`
listener is still registered on the container, and a later `mouseleave` event
still runs it and changes the pointer state of the destroyed field from
`(cx, cy)` to absent. -/
theorem C4_mouseleave_listener_survives_destroy (cw ch : ℚ) (opts : Options) (rnd : ℕ → ℚ)
    (cx cy x y cw2 ch2 : ℚ) (dt : ℕ) :
    (destroy (mousemove (construct (World.init [Element.box cw ch]) 0 opts rnd) 0 cx cy)
        0).elements.map Element.listeners
        = [[Listener.mk "mouseleave" (Handler.leaveHandler 0)]] ∧
      (destroy (mousemove (construct (World.init [Element.box cw ch]) 0 opts rnd) 0 cx cy)
        0).fields.map FieldState.mouse = [{ x := some (cx - 0), y := some (cy - 0) }] ∧
      (mouseleave (destroy (mousemove (construct (World.init [Element.box cw ch]) 0 opts rnd)
        0 cx cy) 0) 0 x y).fields.map FieldState.mouse = [{ x := none, y := none }] ∧
      (mousemove (destroy (mousemove (construct (World.init [Element.box cw ch]) 0 opts rnd)
        0 cx cy) 0) 0 x y).fields =
        (destroy (mousemove (construct (World.init [Element.box cw ch]) 0 opts rnd) 0 cx cy)
          0).fields ∧
      (advance (resize (destroy (mousemove (construct (World.init [Element.box cw ch]) 0 opts
        rnd) 0 cx cy) 0) 0 cw2 ch2) dt).fields =
        (destroy (mousemove (construct (World.init [Element.box cw ch]) 0 opts rnd) 0 cx cy)
          0).fields := by
  rw [destroyed_state]
  exact ⟨rfl, rfl, rfl, rfl, rfl⟩

/-! ## The end-to-end scenario (C5) -/

theorem list_sum_range_eq (f : ℕ → ℕ) (n : ℕ) :
    ((List.range n).map f).sum = ∑ i ∈ Finset.range n, f i := by
  rfl

theorem sum_pairs (n : ℕ) : ((List.range n).map fun i => n - (i + 1)).sum = n * (n - 1) / 2 := by
  rw [list_sum_range_eq, ← Finset.sum_range_id n, ← Finset.sum_range_reflect]
  apply Finset.sum_congr rfl
  intro i hi
  simp only [Finset.mem_range] at hi
  omega

theorem length_filterMap_of_isSome {α β : Type} (f : α → Option β) (l : List α)
    (h : ∀ a ∈ l, (f a).isSome = true) : (l.filterMap f).length = l.length := by
  induction l with
  | nil => rfl
  | cons a l ih =>
    have ha := h a (List.mem_cons_self a l)
    obtain ⟨b, hb⟩ := Option.isSome_iff_exists.mp ha
    rw [List.filterMap_cons_some hb, List.length_cons, List.length_cons,
      ih fun x hx => h x (List.mem_cons_of_mem a hx)]

/-- When every index pair `i < j` of the point array is below the threshold, the
nested loops stroke `n (n - 1) / 2` segments. -/
theorem connectAll_length_of_all_close (opts : Options) (pts : List Point)
    (h : ∀ i j p q, i < j → pts.get? i = some p → pts.get? j = some q →
      distSq p q < opts.maxDistance) :
    (connectAll opts pts).length = pts.length * (pts.length - 1) / 2 := by
  unfold connectAll
  rw [List.length_flatMap, ← sum_pairs pts.length]
  congr 1
  apply List.map_congr_left
  intro i hi
  rw [List.mem_range] at hi
  rw [Function.comp_apply, length_filterMap_of_isSome, List.length_range']
  intro j hj
  rw [List.mem_range'_1] at hj
  have hj2 : j < pts.length := by omega
  rw [List.get?_eq_get hi, List.get?_eq_get hj2]
  obtain ⟨s, hs⟩ := @connect_isSome opts i j (pts.get ⟨i, hi⟩) (pts.get ⟨j, hj2⟩)
    (h i j _ _ hj.1 (List.get?_eq_get hi) (List.get?_eq_get hj2))
  simp only [hs, Option.isSome_some]

theorem updateParticle_fixed (opts : Options) (w h : ℚ) (p : Particle)
    (hb : 0 ≤ p.x ∧ p.x ≤ w ∧ 0 ≤ p.y ∧ p.y ≤ h)
    (hv : p.vx * opts.velocity = 0 ∧ p.vy * opts.velocity = 0) :
    updateParticle opts w h p = p := by
  obtain ⟨h1, h2, h3, h4⟩ := hb
  unfold updateParticle
  simp only [hv.1, hv.2, add_zero]
  rw [if_neg (by rintro (hc | hc) <;> linarith), if_neg (by rintro (hc | hc) <;> linarith),
    min_eq_left h2, min_eq_left h4, max_eq_right h1, max_eq_right h3]

/-- C5: for particles inside the canvas, with zero velocity (the global factor
`velocity` is 0, or every particle has `vx = vy = 0`), no pointer, and every
pairwise squared distance below `maxDistance`, one tick (`updateParticles` then
`drawConnections`) leaves every particle unchanged and strokes exactly
`n (n - 1) / 2` segments. -/
theorem C5_zero_velocity_tick_draws_all_pairs (opts : Options) (w h : ℚ)
    (ps : List Particle) (m : Mouse)
    (hin : ∀ p ∈ ps, 0 ≤ p.x ∧ p.x ≤ w ∧ 0 ≤ p.y ∧ p.y ≤ h)
    (hv : opts.velocity = 0 ∨ ∀ p ∈ ps, p.vx = 0 ∧ p.vy = 0)
    (hm : m.x = none)
    (hd : ps.Pairwise fun p q =>
      (p.x - q.x) * (p.x - q.x) + (p.y - q.y) * (p.y - q.y) < opts.maxDistance) :
    updateParticles opts w h ps = ps ∧
      (drawConnections opts (updateParticles opts w h ps) m).length =
        ps.length * (ps.length - 1) / 2 := by
  have hfix : updateParticles opts w h ps = ps := by
    unfold updateParticles
    conv_rhs => rw [← List.map_id ps]
    apply List.map_congr_left
    intro p hp
    rw [id]
    apply updateParticle_fixed opts w h p (hin p hp)
    rcases hv with hv | hv
    · simp [hv]
    · simp [(hv p hp).1, (hv p hp).2]
  refine ⟨hfix, ?_⟩
  rw [hfix]
  unfold drawConnections allPoints
  simp only [hm, ne_eq, not_true_eq_false, if_false]
  rw [connectAll_length_of_all_close, List.length_map]
  intro i j p q hij hp hq
  simp only [List.get?_eq_getElem?, List.getElem?_map, Option.map_eq_some'] at hp hq
  obtain ⟨p0, hp0, rfl⟩ := hp
  obtain ⟨q0, hq0, rfl⟩ := hq
  obtain ⟨hi, rfl⟩ := List.getElem?_eq_some.mp hp0
  obtain ⟨hj, rfl⟩ := List.getElem?_eq_some.mp hq0
  exact List.pairwise_iff_getElem.mp hd i j hi hj hij

/-- Witness for C5: the scenario of the specification, three particles at fixed
positions, `velocity = 0`, `maxDistance = 1e9`, no pointer: positions unchanged
and exactly 3 segments. -/
theorem C5_zero_velocity_tick_draws_all_pairs_witness :
    updateParticles scenarioOptions 800 600 scenarioParticles = scenarioParticles ∧
      (drawConnections scenarioOptions (updateParticles scenarioOptions 800 600 scenarioParticles)
        { x := none, y := none }).length = 3 * (3 - 1) / 2 :=
  C5_zero_velocity_tick_draws_all_pairs scenarioOptions 800 600 scenarioParticles
    { x := none, y := none } (by norm_num [scenarioParticles]) (Or.inl rfl) rfl
    (by norm_num [scenarioParticles, scenarioOptions, defaultOptions])

/-! ## Stroke width (C6) -/

/-- C6: for `maxDistance > 0` and `lineWidth > 0`, every stroked segment gets the
width `lineWidth * (1 - distSq/maxDistance)` of its two points, and this width is
`lineWidth` at `distSq = 0`, is `0` at `distSq = maxDistance`, and is strictly
decreasing in `distSq` on `[0, maxDistance]`. -/
theorem C6_stroke_width_formula (opts : Options) (hm : 0 < opts.maxDistance)
    (hl : 0 < opts.lineWidth) :
    (∀ (ps : List Particle) (m : Mouse), ∀ s ∈ drawConnections opts ps m,
        ∃ p1 p2, (allPoints ps m).get? s.i = some p1 ∧ (allPoints ps m).get? s.j = some p2 ∧
          s.lineWidth = opts.lineWidth * (1 - distSq p1 p2 / opts.maxDistance)) ∧
      strokeWidth opts.lineWidth 0 opts.maxDistance = opts.lineWidth ∧
      strokeWidth opts.lineWidth opts.maxDistance opts.maxDistance = 0 ∧
      ∀ d1 d2 : ℚ, 0 ≤ d1 → d1 < d2 → d2 ≤ opts.maxDistance →
        strokeWidth opts.lineWidth d2 opts.maxDistance <
          strokeWidth opts.lineWidth d1 opts.maxDistance := by
  refine ⟨?_, ?_, ?_, ?_⟩
  · intro ps m s hs
    obtain ⟨-, p1, p2, h1, h2, hc⟩ := mem_connectAll.mp hs
    exact ⟨p1, p2, h1, h2, (connect_some hc).2.2.2.2.2.2.2⟩
  · simp [strokeWidth]
  · simp [strokeWidth, div_self hm.ne']
  · intro d1 d2 _ h12 _
    unfold strokeWidth
    have hdiv : d1 / opts.maxDistance < d2 / opts.maxDistance :=
      div_lt_div_of_pos_right h12 hm
    nlinarith

/-- Witness for C6: the configuration at the end of the script (`lineWidth = 2`,
`maxDistance = 8000`), widths at squared distances 0, 8000, and 2000 against 6000. -/
theorem C6_stroke_width_formula_witness :
    strokeWidth pageOptions.lineWidth 0 pageOptions.maxDistance = pageOptions.lineWidth ∧
      strokeWidth pageOptions.lineWidth pageOptions.maxDistance pageOptions.maxDistance = 0 ∧
      strokeWidth pageOptions.lineWidth 6000 pageOptions.maxDistance <
        strokeWidth pageOptions.lineWidth 2000 pageOptions.maxDistance :=
  have h := C6_stroke_width_formula pageOptions (by norm_num [pageOptions])
    (by norm_num [pageOptions])
  ⟨h.2.1, h.2.2.1, h.2.2.2 2000 6000 (by norm_num) (by norm_num) (by norm_num [pageOptions])⟩

/-! ## Resize (C7) -/

theorem get?_modifyAt_same {α : Type} (g : α → α) :
    ∀ (n : ℕ) (l : List α), (modifyAt g n l).get? n = (l.get? n).map g
  | n, [] => by cases n <;> rfl
  | 0, _ :: _ => rfl
  | n + 1, _ :: l => get?_modifyAt_same g n l

theorem map_modifyAt {α β : Type} (g : α → α) (p : α → β) (hp : ∀ a, p (g a) = p a) :
    ∀ (n : ℕ) (l : List α), (modifyAt g n l).map p = l.map p
  | n, [] => by cases n <;> rfl
  | 0, a :: l => by simp [modifyAt, hp]
  | n + 1, a :: l => by simp [modifyAt, map_modifyAt g p hp n l]

theorem resizeCanvas_field (w : World) (f : ℕ) (fld : FieldState) (el : Element)
    (hf : w.fields.get? f = some fld) (he : w.elements.get? fld.container = some el) :
    (resizeCanvas w f).fields.get? f =
      some { fld with canvasWidth := el.clientWidth, canvasHeight := el.clientHeight } := by
  unfold resizeCanvas
  simp only [hf, he, World.updField]
  rw [get?_modifyAt_same, hf]
  rfl

theorem animate_field (w : World) (f : ℕ) (fld : FieldState)
    (hf : w.fields.get? f = some fld) :
    (animate w f).fields.get? f = some (animateField fld) := by
  unfold animate requestAnimationFrame
  simp only [World.updField]
  rw [get?_modifyAt_same, hf]
  rfl

/-- C7 (counterexample): after the canvas has shrunk to width 100, a particle at
`x = 100.1` (beyond the new bound) with `vx = -0.4` under the default
`velocity = 0.8` is moved to `99.78` by the next tick: strictly inside the canvas,
not on the boundary `x = 100`. -/
theorem C7_counterexample_particle_not_put_on_boundary :
    (100 : ℚ) < (Particle.mk 0 (1001 / 10) 50 (-4 / 10) 0 none).x ∧
      (updateParticle defaultOptions 100 100
        (Particle.mk 0 (1001 / 10) 50 (-4 / 10) 0 none)).x = 9978 / 100 ∧
      (updateParticle defaultOptions 100 100
        (Particle.mk 0 (1001 / 10) 50 (-4 / 10) 0 none)).x ≠ 100 := by
  norm_num [updateParticle, defaultOptions]

/-- C7 (amended): `resizeCanvas` sets the canvas width and height of the field
exactly to the container's current `clientWidth` and `clientHeight` and changes
nothing else of the field (no particle); the next `animate` updates the particles
against the new size; every particle then lies within the new bounds, a
particle whose moved position `x + vx*velocity` exceeds the new width is put
exactly on `x = width`, and one whose moved position is within `[0, width]` stays
at that moved position (likewise `y` and the height). -/
theorem C7_resize_then_tick_clamps_to_new_bounds (w : World) (f : ℕ) (fld : FieldState)
    (el : Element) (hf : w.fields.get? f = some fld)
    (he : w.elements.get? fld.container = some el)
    (hw : 0 ≤ el.clientWidth) (hh : 0 ≤ el.clientHeight) :
    (resizeCanvas w f).fields.get? f =
        some { fld with canvasWidth := el.clientWidth, canvasHeight := el.clientHeight } ∧
      ((animate (resizeCanvas w f) f).fields.get? f).map FieldState.particles =
        some (updateParticles fld.options el.clientWidth el.clientHeight fld.particles) ∧
      ∀ p : Particle,
        0 ≤ (updateParticle fld.options el.clientWidth el.clientHeight p).x ∧
        (updateParticle fld.options el.clientWidth el.clientHeight p).x ≤ el.clientWidth ∧
        0 ≤ (updateParticle fld.options el.clientWidth el.clientHeight p).y ∧
        (updateParticle fld.options el.clientWidth el.clientHeight p).y ≤ el.clientHeight ∧
        (el.clientWidth < p.x + p.vx * fld.options.velocity →
          (updateParticle fld.options el.clientWidth el.clientHeight p).x = el.clientWidth) ∧
        (el.clientHeight < p.y + p.vy * fld.options.velocity →
          (updateParticle fld.options el.clientWidth el.clientHeight p).y = el.clientHeight) ∧
        (0 ≤ p.x + p.vx * fld.options.velocity →
          p.x + p.vx * fld.options.velocity ≤ el.clientWidth →
          (updateParticle fld.options el.clientWidth el.clientHeight p).x =
            p.x + p.vx * fld.options.velocity) ∧
        (0 ≤ p.y + p.vy * fld.options.velocity →
          p.y + p.vy * fld.options.velocity ≤ el.clientHeight →
          (updateParticle fld.options el.clientWidth el.clientHeight p).y =
            p.y + p.vy * fld.options.velocity) := by
  have hr := resizeCanvas_field w f fld el hf he
  refine ⟨hr, ?_, ?_⟩
  · rw [animate_field _ f _ hr]
    rfl
  · intro p
    obtain ⟨b1, b2, b3, b4⟩ :=
      updateParticle_bounds fld.options el.clientWidth el.clientHeight hw hh p
    refine ⟨b1, b2, b3, b4, ?_, ?_, ?_, ?_⟩
    · intro hx
      simp only [updateParticle]
      rw [min_eq_right hx.le, max_eq_right hw]
    · intro hy
      simp only [updateParticle]
      rw [min_eq_right hy.le, max_eq_right hh]
    · intro h0 h1
      simp only [updateParticle]
      rw [min_eq_left h1, max_eq_right h0]
    · intro h0 h1
      simp only [updateParticle]
      rw [min_eq_left h1, max_eq_right h0]

/-- Witness for C7: a field built on an 800 × 600 container that is then shrunk
to 100 × 100 before `resizeCanvas` runs. -/
theorem C7_resize_then_tick_clamps_to_new_bounds_witness :
    (resizeCanvas shrunkPage 0).fields.get? 0 =
        some { shrunkField with canvasWidth := 100, canvasHeight := 100 } ∧
      ((animate (resizeCanvas shrunkPage 0) 0).fields.get? 0).map FieldState.particles =
        some (updateParticles shrunkField.options 100 100 shrunkField.particles) ∧
      (updateParticle shrunkField.options 100 100
        (Particle.mk 0 (1001 / 10) 500 (4 / 10) 3 none)).x = 100 ∧
      (updateParticle shrunkField.options 100 100
        (Particle.mk 0 (1001 / 10) 500 (4 / 10) 3 none)).y = 100 :=
  have h := C7_resize_then_tick_clamps_to_new_bounds shrunkPage 0 shrunkField
    (Element.box 100 100) rfl rfl (by norm_num [Element.box]) (by norm_num [Element.box])
  ⟨h.1, h.2.1,
    (h.2.2 (Particle.mk 0 (1001 / 10) 500 (4 / 10) 3 none)).2.2.2.2.1
      (by norm_num [shrunkField, defaultOptions, Element.box]),
    (h.2.2 (Particle.mk 0 (1001 / 10) 500 (4 / 10) 3 none)).2.2.2.2.2.1
      (by norm_num [shrunkField, defaultOptions, Element.box])⟩

/-! ## Palette colours (C8) -/

theorem generateColor_custom (opts : Options) (r : ℚ) (hc : opts.colorType = "custom")
    (hk : opts.colors ≠ []) (h0 : 0 ≤ r) (h1 : r < 1) :
    0 ≤ Int.floor (r * (opts.colors.length : ℚ)) ∧
      (Int.floor (r * (opts.colors.length : ℚ))).toNat < opts.colors.length ∧
      ∃ c, opts.colors.get? (Int.floor (r * (opts.colors.length : ℚ))).toNat = some c ∧
        generateColor opts r = some (Color.named c) := by
  have hlen : (0 : ℚ) < (opts.colors.length : ℚ) := by
    have : 0 < opts.colors.length := List.length_pos.mpr hk
    exact_mod_cast this
  have hnn : 0 ≤ Int.floor (r * (opts.colors.length : ℚ)) :=
    Int.floor_nonneg.mpr (mul_nonneg h0 hlen.le)
  have hlt : Int.floor (r * (opts.colors.length : ℚ)) < (opts.colors.length : ℤ) := by
    rw [Int.floor_lt]
    have : r * (opts.colors.length : ℚ) < 1 * (opts.colors.length : ℚ) :=
      mul_lt_mul_of_pos_right h1 hlen
    simpa using this
  have hidx : (Int.floor (r * (opts.colors.length : ℚ))).toNat < opts.colors.length := by
    omega
  refine ⟨hnn, hidx, opts.colors.get ⟨_, hidx⟩, List.get?_eq_get hidx, ?_⟩
  unfold generateColor
  rw [if_pos hc]
  simp only [not_lt.mpr hnn, if_false, List.get?_eq_get hidx, Option.map_some']

/-- C8: with `colorType = "custom"`, a non-empty palette of size `k` and a draw
`r` in `[0,1)`, `generateColor` returns `colors[floor(r*k)]` where
`0 ≤ floor(r*k) ≤ k-1`, and every particle built by `initParticles` from draws in
`[0,1)` has a colour that is a member of the palette. -/
theorem C8_custom_colour_is_palette_member (opts : Options)
    (hc : opts.colorType = "custom") (hk : opts.colors ≠ []) :
    (∀ r : ℚ, 0 ≤ r → r < 1 →
        0 ≤ Int.floor (r * (opts.colors.length : ℚ)) ∧
        Int.floor (r * (opts.colors.length : ℚ)) ≤ (opts.colors.length : ℤ) - 1 ∧
        ∃ c, opts.colors.get? (Int.floor (r * (opts.colors.length : ℚ))).toNat = some c ∧
          generateColor opts r = some (Color.named c)) ∧
      ∀ (w h : ℚ) (rnd : ℕ → ℚ), (∀ k, 0 ≤ rnd k ∧ rnd k < 1) →
        ∀ p ∈ initParticles opts w h rnd, ∃ c ∈ opts.colors, p.color = some (Color.named c) := by
  constructor
  · intro r h0 h1
    obtain ⟨hnn, hidx, c, hget, hgen⟩ := generateColor_custom opts r hc hk h0 h1
    exact ⟨hnn, by omega, c, hget, hgen⟩
  · intro w h rnd hr p hp
    obtain ⟨i, -, rfl⟩ := List.mem_map.mp hp
    obtain ⟨-, -, c, hget, hgen⟩ :=
      generateColor_custom opts (rnd (6 * i + 5)) hc hk (hr _).1 (hr _).2
    exact ⟨c, List.get?_mem hget, hgen⟩

/-- Witness for C8: the default three-colour palette in custom mode; the draw
`r = 2/3` selects index `floor(2/3 * 3) = 2`. -/
theorem C8_custom_colour_is_palette_member_witness :
    generateColor customOptions (2 / 3) = some (Color.named "#45B7D1") ∧
      ∀ p ∈ initParticles customOptions 800 600 fun _ => 2 / 3,
        ∃ c ∈ customOptions.colors, p.color = some (Color.named c) := by
  have h := C8_custom_colour_is_palette_member customOptions rfl (by simp [customOptions, defaultOptions])
  refine ⟨?_, h.2 800 600 (fun _ => 2 / 3) (fun _ => by norm_num)⟩
  obtain ⟨-, -, c, hget, hgen⟩ := h.1 (2 / 3) (by norm_num) (by norm_num)
  rw [hgen]
  have hfl : Int.floor ((2 / 3 : ℚ) * ((customOptions.colors.length : ℕ) : ℚ)) = 2 := by
    norm_num [customOptions, defaultOptions]
  rw [hfl] at hget
  simp [customOptions, defaultOptions] at hget
  rw [hget]

/-! ## One update tick (C9) -/

theorem clamp_eq (a w : ℚ) (hw : 0 ≤ w) :
    max 0 (min a w) = if a < 0 then 0 else if w < a then w else a := by
  split_ifs with h1 h2
  · rw [min_eq_left (by linarith), max_eq_left h1.le]
  · rw [min_eq_right h2.le, max_eq_right hw]
  · rw [min_eq_left (not_lt.mp h2), max_eq_right (not_lt.mp h1)]

/-- C9: on a canvas of width `w ≥ 0` and height `h ≥ 0`, one `updateParticles`
tick treats every particle on its own and each axis on its own: with
`x* = x + vx*velocity`, the new `vx` is `-vx` exactly when `x* < 0` or `x* > w`
and is `vx` otherwise (so `|vx|` is preserved and a particle with `x*` exactly on
an edge is not reflected), the new `x` is `x*` clamped into `[0, w]`; likewise for
`y`, `vy`, `h`; `id` and colour are kept.  The displacement is `vx*velocity`, so
for a particle made by `initParticles` the factor `velocity` multiplies a `vx`
that already contains `baseSpeed = velocity * (1 + speedVariation * (r - 0.5))`. -/
theorem C9_update_tick_reflects_and_clamps (opts : Options) (w h : ℚ) (hw : 0 ≤ w)
    (hh : 0 ≤ h) :
    (∀ ps : List Particle, updateParticles opts w h ps = ps.map (updateParticle opts w h)) ∧
      (∀ p : Particle, updateParticle opts w h p =
        { id := p.id
          x := if p.x + p.vx * opts.velocity < 0 then 0
            else if w < p.x + p.vx * opts.velocity then w else p.x + p.vx * opts.velocity
          y := if p.y + p.vy * opts.velocity < 0 then 0
            else if h < p.y + p.vy * opts.velocity then h else p.y + p.vy * opts.velocity
          vx := if p.x + p.vx * opts.velocity < 0 ∨ w < p.x + p.vx * opts.velocity then -p.vx
            else p.vx
          vy := if p.y + p.vy * opts.velocity < 0 ∨ h < p.y + p.vy * opts.velocity then -p.vy
            else p.vy
          color := p.color }) ∧
      (∀ p : Particle, |(updateParticle opts w h p).vx| = |p.vx| ∧
        |(updateParticle opts w h p).vy| = |p.vy|) ∧
      (∀ p : Particle,
        (p.x + p.vx * opts.velocity = 0 ∨ p.x + p.vx * opts.velocity = w →
          (updateParticle opts w h p).vx = p.vx ∧
            (updateParticle opts w h p).x = p.x + p.vx * opts.velocity) ∧
        (p.y + p.vy * opts.velocity = 0 ∨ p.y + p.vy * opts.velocity = h →
          (updateParticle opts w h p).vy = p.vy ∧
            (updateParticle opts w h p).y = p.y + p.vy * opts.velocity)) ∧
      ∀ (rnd : ℕ → ℚ) (i : ℕ),
        (initParticle opts w h rnd i).vx * opts.velocity =
          (rnd (6 * i + 3) - 1 / 2) *
            (opts.velocity * (1 + opts.speedVariation * (rnd (6 * i) - 1 / 2))) * opts.velocity ∧
        (initParticle opts w h rnd i).vy * opts.velocity =
          (rnd (6 * i + 4) - 1 / 2) *
            (opts.velocity * (1 + opts.speedVariation * (rnd (6 * i) - 1 / 2))) * opts.velocity := by
  have hform : ∀ p : Particle, updateParticle opts w h p =
        { id := p.id
          x := if p.x + p.vx * opts.velocity < 0 then 0
            else if w < p.x + p.vx * opts.velocity then w else p.x + p.vx * opts.velocity
          y := if p.y + p.vy * opts.velocity < 0 then 0
            else if h < p.y + p.vy * opts.velocity then h else p.y + p.vy * opts.velocity
          vx := if p.x + p.vx * opts.velocity < 0 ∨ w < p.x + p.vx * opts.velocity then -p.vx
            else p.vx
          vy := if p.y + p.vy * opts.velocity < 0 ∨ h < p.y + p.vy * opts.velocity then -p.vy
            else p.vy
          color := p.color } := by
    intro p
    simp only [updateParticle, clamp_eq _ w hw, clamp_eq _ h hh, gt_iff_lt, mul_neg, mul_one]
  refine ⟨fun ps => rfl, hform, ?_, ?_, ?_⟩
  · intro p
    rw [hform p]
    constructor
    · show |ite _ _ _| = _
      split_ifs <;> simp
    · show |ite _ _ _| = _
      split_ifs <;> simp
  · intro p
    rw [hform p]
    constructor
    · intro hx
      have hn : ¬ (p.x + p.vx * opts.velocity < 0 ∨ w < p.x + p.vx * opts.velocity) := by
        rcases hx with hx | hx <;> rw [hx] <;> rintro (hc | hc) <;> linarith
      have h1 : ¬ p.x + p.vx * opts.velocity < 0 := fun hc => hn (Or.inl hc)
      have h2 : ¬ w < p.x + p.vx * opts.velocity := fun hc => hn (Or.inr hc)
      exact ⟨if_neg hn, by show ite _ _ _ = _; rw [if_neg h1, if_neg h2]⟩
    · intro hy
      have hn : ¬ (p.y + p.vy * opts.velocity < 0 ∨ h < p.y + p.vy * opts.velocity) := by
        rcases hy with hy | hy <;> rw [hy] <;> rintro (hc | hc) <;> linarith
      have h1 : ¬ p.y + p.vy * opts.velocity < 0 := fun hc => hn (Or.inl hc)
      have h2 : ¬ h < p.y + p.vy * opts.velocity := fun hc => hn (Or.inr hc)
      exact ⟨if_neg hn, by show ite _ _ _ = _; rw [if_neg h1, if_neg h2]⟩
  · intro rnd i
    exact ⟨rfl, rfl⟩

/-- Witness for C9: the default options on a 100 × 100 canvas.  A particle at
`x = 99.9` with `vx = 0.5` crosses the right edge (`x* = 100.3`): it is put on
`x = 100` with `vx = -0.5`; its `y* = 0` is exactly on the top edge and `vy` is
kept. -/
theorem C9_update_tick_reflects_and_clamps_witness :
    updateParticle defaultOptions 100 100 (Particle.mk 7 (999 / 10) (4 / 10) (1 / 2) (-1 / 2) none)
      = Particle.mk 7 100 0 (-1 / 2) (-1 / 2) none := by
  rw [(C9_update_tick_reflects_and_clamps defaultOptions 100 100 (by norm_num)
    (by norm_num)).2.1]
  norm_num [defaultOptions]

/-! ## Pointer leave (C10) -/

theorem animate_mouse (w : World) (f : ℕ) :
    (animate w f).fields.map FieldState.mouse = w.fields.map FieldState.mouse := by
  unfold animate requestAnimationFrame
  simp only [World.updField]
  exact map_modifyAt animateField FieldState.mouse (fun _ => rfl) f w.fields

theorem foldl_animate_mouse :
    ∀ (l : List (ℕ × ℕ)) (w : World),
      (l.foldl (fun acc r => animate acc r.2) w).fields.map FieldState.mouse =
        w.fields.map FieldState.mouse
  | [], _ => rfl
  | r :: l, w => by
    rw [List.foldl_cons, foldl_animate_mouse l (animate w r.2), animate_mouse]

theorem runFrame_mouse (w : World) :
    (runFrame w).fields.map FieldState.mouse = w.fields.map FieldState.mouse := by
  unfold runFrame
  rw [foldl_animate_mouse]

/-- C10: the `mouseleave` handler of a field sets its pointer state to absent
(`mouse.x = mouse.y = null`) whatever it was before, also when run through a
`mouseleave` event after a recorded pointer move; with the pointer absent
`drawConnections` works on the particles alone and every segment joins two
particles of the collection; while the pointer is present it is only the last
element of the point list, and `animate` (hence `updateParticles`) never changes
the pointer state. -/
theorem C10_pointer_leave_clears_pointer (w : World) (f : ℕ) (fld : FieldState)
    (hf : w.fields.get? f = some fld) (cx cy : ℚ) :
    (runHandler w cx cy (Handler.leaveHandler f)).fields.get? f =
        some { fld with mouse := { x := none, y := none } } ∧
      (∀ (cw ch px py : ℚ) (opts : Options) (rnd : ℕ → ℚ),
        (mouseleave (mousemove (construct (World.init [Element.box cw ch]) 0 opts rnd) 0 px py)
          0 cx cy).fields.map FieldState.mouse = [{ x := none, y := none }]) ∧
      allPoints fld.particles { x := none, y := none } = fld.particles.map Particle.toPoint ∧
      (∀ s ∈ drawConnections fld.options fld.particles { x := none, y := none },
        s.i < s.j ∧ s.j < fld.particles.length ∧
        ∃ p q, fld.particles.get? s.i = some p ∧ fld.particles.get? s.j = some q ∧
          s.x1 = p.x ∧ s.y1 = p.y ∧ s.x2 = q.x ∧ s.y2 = q.y) ∧
      (∀ (mx : ℚ) (my : Option ℚ),
        allPoints fld.particles { x := some mx, y := my } =
          fld.particles.map Particle.toPoint ++ [{ x := mx, y := toNumber my, color := none }]) ∧
      (animateField fld).mouse = fld.mouse ∧
      (runFrame w).fields.map FieldState.mouse = w.fields.map FieldState.mouse := by
  refine ⟨?_, ?_, ?_, ?_, ?_, rfl, runFrame_mouse w⟩
  · simp only [runHandler, World.updField]
    rw [get?_modifyAt_same, hf]
    rfl
  · intro cw ch px py opts rnd
    rw [construct_init]
    rfl
  · rfl
  · intro s hs
    obtain ⟨hij, p1, p2, h1, h2, hc⟩ := mem_connectAll.mp hs
    have hpts : allPoints fld.particles { x := none, y := none } =
        fld.particles.map Particle.toPoint := rfl
    rw [hpts] at h1 h2
    simp only [List.get?_eq_getElem?, List.getElem?_map, Option.map_eq_some'] at h1 h2
    obtain ⟨p, hp, rfl⟩ := h1
    obtain ⟨q, hq, rfl⟩ := h2
    obtain ⟨-, -, -, e1, e2, e3, e4, -⟩ := connect_some hc
    obtain ⟨hj, -⟩ := List.getElem?_eq_some.mp hq
    refine ⟨hij, hj, p, q, ?_, ?_, e1, e2, e3, e4⟩
    · rw [List.get?_eq_getElem?]; exact hp
    · rw [List.get?_eq_getElem?]; exact hq
  · intro mx my
    rfl

/-- Witness for C10: a field built on an 800 × 600 container, pointer recorded at
(5, 5), then the leave handler runs. -/
theorem C10_pointer_leave_clears_pointer_witness :
    ((runHandler (mousemove (construct (World.init [Element.box 800 600]) 0 scenarioOptions
        fun _ => 1 / 4) 0 5 5) 0 0 (Handler.leaveHandler 0)).fields.get? 0).map FieldState.mouse
      = some { x := none, y := none } := by
  rw [(C10_pointer_leave_clears_pointer
    (mousemove (construct (World.init [Element.box 800 600]) 0 scenarioOptions fun _ => 1 / 4)
      0 5 5) 0 _ rfl 0 0).1]
  rfl

/-! ## Stroke colours (C11) -/

theorem colorOr_eq (a b : Option Color) : colorOr a b = if truthy a = true then a else b := by
  unfold colorOr truthy
  split <;> simp_all

/-- The nested loops on a two-point array visit the single pair `(0, 1)`. -/
theorem connectAll_pair (opts : Options) (a b : Point) :
    connectAll opts [a, b] = (connect opts 0 1 a b).toList := by
  unfold connectAll
  cases h : connect opts 0 1 a b <;>
    simp [List.range, List.range.loop, List.range', List.flatMap, h]

/-- C11 (counterexample): with the palette `["#FF6B6B", ""]` in custom mode the
draw `r = 3/4` gives a particle the colour `""`; for the segment between a
particle coloured `"#FF6B6B"` and that particle, the gradient stop at 1 is
`"#FF6B6B"`, the first particle's colour, not the second particle's. -/
theorem C11_counterexample_blank_second_colour :
    generateColor blankPaletteOptions (3 / 4) = some (Color.named "") ∧
      (drawConnections blankPaletteOptions blankPaletteParticles { x := none, y := none }).map
        Segment.strokeStyle =
        [StrokeStyle.gradient (some (Color.named "#FF6B6B")) (some (Color.named "#FF6B6B"))] ∧
      (drawConnections blankPaletteOptions blankPaletteParticles { x := none, y := none }).map
        Segment.strokeStyle ≠
        [StrokeStyle.gradient (some (Color.named "#FF6B6B")) (some (Color.named ""))] := by
  have h1 : generateColor blankPaletteOptions (3 / 4) = some (Color.named "") := by
    have hfl : Int.floor ((3 / 4 : ℚ) * ((blankPaletteOptions.colors.length : ℕ) : ℚ)) = 1 := by
      norm_num [blankPaletteOptions, defaultOptions]
    unfold generateColor
    simp only [hfl]
    rfl
  have hd : distSq (Point.mk 10 10 (some (Color.named "#FF6B6B")))
      (Point.mk 20 10 (some (Color.named ""))) < blankPaletteOptions.maxDistance := by
    norm_num [distSq, blankPaletteOptions, defaultOptions]
  have h2 : (drawConnections blankPaletteOptions blankPaletteParticles
      { x := none, y := none }).map Segment.strokeStyle =
      [StrokeStyle.gradient (some (Color.named "#FF6B6B")) (some (Color.named "#FF6B6B"))] := by
    have hp : allPoints blankPaletteParticles { x := none, y := none } =
        [Point.mk 10 10 (some (Color.named "#FF6B6B")), Point.mk 20 10 (some (Color.named ""))] :=
      rfl
    unfold drawConnections
    rw [hp, connectAll_pair]
    unfold connect
    rw [if_pos hd]
    rfl
  refine ⟨h1, h2, ?_⟩
  rw [h2]
  decide

/-- An element of `allPoints` is a particle, at its index in the collection, or
the pointer, at the index just after the last particle. -/
theorem allPoints_get? (ps : List Particle) (m : Mouse) (i : ℕ) (pt : Point)
    (h : (allPoints ps m).get? i = some pt) :
    (∃ p, ps.get? i = some p ∧ pt = p.toPoint) ∨
      (i = ps.length ∧ m.x ≠ none ∧ pt = m.toPoint) := by
  unfold allPoints at h
  by_cases hm : m.x = none
  · simp only [hm, ne_eq, not_true_eq_false, if_false, List.get?_eq_getElem?,
      List.getElem?_map, Option.map_eq_some'] at h
    obtain ⟨p, hp, rfl⟩ := h
    exact Or.inl ⟨p, by rw [List.get?_eq_getElem?]; exact hp, rfl⟩
  · simp only [ne_eq, hm, not_false_eq_true, if_true, List.get?_eq_getElem?] at h
    by_cases hi : i < ps.length
    · rw [List.getElem?_append_left (by simpa using hi)] at h
      simp only [List.getElem?_map, Option.map_eq_some'] at h
      obtain ⟨p, hp, rfl⟩ := h
      exact Or.inl ⟨p, by rw [List.get?_eq_getElem?]; exact hp, rfl⟩
    · rw [List.getElem?_append_right (by simpa using hi)] at h
      simp only [List.length_map] at h
      have hlt : i - ps.length < 1 := by
        by_contra hc
        rw [List.getElem?_eq_none (by simp only [List.length_singleton]; omega)] at h
        simp at h
      have h0 : i - ps.length = 0 := by omega
      rw [h0] at h
      simp only [List.getElem?_cons_zero, Option.some.injEq] at h
      exact Or.inr ⟨by omega, hm, h.symm⟩

theorem allPoints_length_le (ps : List Particle) (m : Mouse) :
    (allPoints ps m).length ≤ ps.length + 1 := by
  unfold allPoints
  split <;> simp

/-- C11 (amended): the pointer, when present, is the last element of the point
list, so the first endpoint of every drawn segment is a particle.  For a segment
whose second endpoint is the pointer, the flat-mode stroke colour and, in gradient
mode, both gradient stops are that particle's colour.  For a segment between two
particles the flat-mode colour is the first particle's, the gradient stop 0 is
the first particle's colour, and the gradient stop 1 is the second particle's
colour when that colour is truthy (a non-empty string) and the first particle's
colour otherwise. -/
theorem C11_stroke_colours (opts : Options) (ps : List Particle) (m : Mouse) :
    (∀ (mx : ℚ) (my : Option ℚ),
        allPoints ps { x := some mx, y := my } =
          ps.map Particle.toPoint ++ [{ x := mx, y := toNumber my, color := none }]) ∧
      ∀ s ∈ drawConnections opts ps m, ∃ p1, ps.get? s.i = some p1 ∧
        ((∃ p2, ps.get? s.j = some p2 ∧
            s.strokeStyle =
              if opts.lineType = "gradient" then
                StrokeStyle.gradient p1.color
                  (if truthy p2.color = true then p2.color else p1.color)
              else StrokeStyle.flat p1.color) ∨
          (s.j = ps.length ∧ m.x ≠ none ∧
            s.strokeStyle =
              if opts.lineType = "gradient" then StrokeStyle.gradient p1.color p1.color
              else StrokeStyle.flat p1.color)) := by
  refine ⟨fun mx my => rfl, ?_⟩
  intro s hs
  obtain ⟨hij, pt1, pt2, h1, h2, hc⟩ := mem_connectAll.mp hs
  have hj : s.j < (allPoints ps m).length := by
    by_contra hcon
    rw [List.get?_eq_none.mpr (not_lt.mp hcon)] at h2
    simp at h2
  have hlen := allPoints_length_le ps m
  have hstyle : s.strokeStyle =
      if opts.lineType = "gradient" then
        StrokeStyle.gradient pt1.color (colorOr pt2.color pt1.color)
      else StrokeStyle.flat pt1.color := by
    unfold connect at hc
    split at hc
    · simp only [Option.some.injEq] at hc
      rw [← hc]
    · simp at hc
  rcases allPoints_get? ps m s.i pt1 h1 with ⟨p1, hp1, rfl⟩ | ⟨hi, -, -⟩
  · refine ⟨p1, hp1, ?_⟩
    rcases allPoints_get? ps m s.j pt2 h2 with ⟨p2, hp2, rfl⟩ | ⟨hjl, hm, rfl⟩
    · left
      refine ⟨p2, hp2, ?_⟩
      rw [hstyle, colorOr_eq]
      rfl
    · right
      refine ⟨hjl, hm, ?_⟩
      rw [hstyle]
      rfl
  · omega

/-! ## Independence of instances (C12) -/

/-- The page on which two fields share one container. -/
theorem sharedPage_state (cw ch : ℚ) (oA oB : Options) (rA rB : ℕ → ℚ) :
    sharedPage cw ch oA oB rA rB =
      { fields := [{ container := 0, options := oA, canvasWidth := cw, canvasHeight := ch,
                     particles := initParticles oA cw ch rA,
                     mouse := { x := none, y := none }, animationFrame := some 1,
                     frames := 0, ctxLog := [] },
                   { container := 0, options := oB, canvasWidth := cw, canvasHeight := ch,
                     particles := initParticles oB cw ch rB,
                     mouse := { x := none, y := none }, animationFrame := some 2,
                     frames := 0, ctxLog := [] }]
        elements := [{ clientWidth := cw, clientHeight := ch, left := 0, top := 0,
                       listeners := [Listener.mk "mousemove" (Handler.mouseHandler 0),
                                     Listener.mk "mouseleave" (Handler.leaveHandler 0),
                                     Listener.mk "mousemove" (Handler.mouseHandler 1),
                                     Listener.mk "mouseleave" (Handler.leaveHandler 1)],
                       children := [0, 1] }]
        sensors := [(0, 1)]
        observers := [{ field := 0, observing := [0], timeout := none },
                      { field := 1, observing := [0], timeout := none }]
        timers := []
        nextTimer := 1
        now := 0
        frameRequests := [(1, 0), (2, 1)]
        nextHandle := 3 } := by
  unfold sharedPage
  rw [construct_init]
  rfl

/-- The page on which two fields sit on two different containers. -/
theorem separatePage_state (cw ch : ℚ) (oA oB : Options) (rA rB : ℕ → ℚ) :
    separatePage cw ch oA oB rA rB =
      { fields := [{ container := 0, options := oA, canvasWidth := cw, canvasHeight := ch,
                     particles := initParticles oA cw ch rA,
                     mouse := { x := none, y := none }, animationFrame := some 1,
                     frames := 0, ctxLog := [] },
                   { container := 1, options := oB, canvasWidth := cw, canvasHeight := ch,
                     particles := initParticles oB cw ch rB,
                     mouse := { x := none, y := none }, animationFrame := some 2,
                     frames := 0, ctxLog := [] }]
        elements := [{ clientWidth := cw, clientHeight := ch, left := 0, top := 0,
                       listeners := [Listener.mk "mousemove" (Handler.mouseHandler 0),
                                     Listener.mk "mouseleave" (Handler.leaveHandler 0)],
                       children := [0] },
                     { clientWidth := cw, clientHeight := ch, left := 0, top := 0,
                       listeners := [Listener.mk "mousemove" (Handler.mouseHandler 1),
                                     Listener.mk "mouseleave" (Handler.leaveHandler 1)],
                       children := [1] }]
        sensors := [(0, 0), (1, 1)]
        observers := [{ field := 0, observing := [0], timeout := none },
                      { field := 1, observing := [1], timeout := none }]
        timers := []
        nextTimer := 1
        now := 0
        frameRequests := [(1, 0), (2, 1)]
        nextHandle := 3 } := by
  rfl

/-- C12 (evaluation of the code): two fields A (index 0) and B (index 1) are
constructed on the same container.  The second `SizeSensor.observe` replaces the
map entry of the container, so `destroy(A)` disconnects B's observer and leaves
A's own observer observing: after a later resize of the container (and the
debounce delay) the canvas of the destroyed A is resized and that of the live B
is not, and after both fields are destroyed A's observer still observes the
container.  B's pointer listeners are left in place.  On two different containers
`destroy(A)` disconnects A's observer only, B still follows a resize of its
container, and destroying both leaves no observer observing. -/
theorem C12_shared_container_observer_mixup (cw ch cw2 ch2 : ℚ) (oA oB : Options)
    (rA rB : ℕ → ℚ) :
    (sharedPage cw ch oA oB rA rB).sensors = [(0, 1)] ∧
      (destroy (sharedPage cw ch oA oB rA rB) 0).observers =
        [{ field := 0, observing := [0], timeout := none },
         { field := 1, observing := [], timeout := none }] ∧
      (destroy (sharedPage cw ch oA oB rA rB) 0).elements.map Element.listeners =
        [[Listener.mk "mouseleave" (Handler.leaveHandler 0),
          Listener.mk "mousemove" (Handler.mouseHandler 1),
          Listener.mk "mouseleave" (Handler.leaveHandler 1)]] ∧
      (advance (resize (destroy (sharedPage cw ch oA oB rA rB) 0) 0 cw2 ch2) 30).canvasSizes =
        [(cw2, ch2), (cw, ch)] ∧
      (destroy (destroy (sharedPage cw ch oA oB rA rB) 0) 1).observers.map Observer.observing =
        [[0], []] ∧
      (destroy (separatePage cw ch oA oB rA rB) 0).observers =
        [{ field := 0, observing := [], timeout := none },
         { field := 1, observing := [1], timeout := none }] ∧
      (advance (resize (destroy (separatePage cw ch oA oB rA rB) 0) 1 cw2 ch2) 30).canvasSizes =
        [(cw, ch), (cw2, ch2)] ∧
      (destroy (destroy (separatePage cw ch oA oB rA rB) 0) 1).observers.map
        Observer.observing = [[], []] := by
  rw [sharedPage_state, separatePage_state]
  exact ⟨rfl, rfl, rfl, rfl, rfl, rfl, rfl, rfl⟩

/-! ## Debounce (C13) -/

theorem armed_call_of_idle {α : Type} (d : Debounced α) (hp : d.pending = []) (a : α) :
    Armed (d.call a) a ∧ (d.call a).invoked = d.invoked ∧ (d.call a).wait = d.wait ∧
      (d.call a).now = d.now := by
  refine ⟨⟨d.nextTimer, ?_, rfl⟩, rfl, rfl, rfl⟩
  cases ht : d.timeout <;> simp [Debounced.call, hp, ht]

theorem armed_step {α : Type} {d : Debounced α} {a : α} (h : Armed d a) (gap : ℕ)
    (hg : gap < d.wait) (b : α) :
    Armed ((d.advance gap).call b) b ∧ ((d.advance gap).call b).invoked = d.invoked ∧
      ((d.advance gap).call b).wait = d.wait ∧ ((d.advance gap).call b).now = d.now + gap := by
  obtain ⟨i, hp, ht⟩ := h
  have hnd : ¬ d.now + d.wait ≤ d.now + gap := by omega
  refine ⟨⟨d.nextTimer, ?_, rfl⟩, ?_, rfl, rfl⟩
  · simp [Debounced.call, Debounced.advance, hp, ht, hnd]
  · simp [Debounced.call, Debounced.advance, hp, hnd]

theorem armed_burst {α : Type} :
    ∀ (rest : List (ℕ × α)) (d : Debounced α) (a : α), Armed d a →
      (∀ c ∈ rest, c.1 < d.wait) →
      Armed (d.burst rest) (lastArgs a rest) ∧ (d.burst rest).invoked = d.invoked ∧
        (d.burst rest).wait = d.wait ∧ (d.burst rest).now = d.now + (rest.map Prod.fst).sum
  | [], d, a, h, _ => ⟨h, rfl, rfl, by simp [Debounced.burst]⟩
  | c :: rest, d, a, h, hg => by
    obtain ⟨h1, h2, h3, h4⟩ := armed_step h c.1 (hg c (List.mem_cons_self c rest)) c.2
    obtain ⟨k1, k2, k3, k4⟩ := armed_burst rest ((d.advance c.1).call c.2) c.2 h1
      (fun x hx => by rw [h3]; exact hg x (List.mem_cons_of_mem c hx))
    refine ⟨k1, by rw [← h2]; exact k2, by rw [← h3]; exact k3, ?_⟩
    show (Debounced.burst ((d.advance c.1).call c.2) rest).now = _
    rw [k4, h4]
    simp [Nat.add_assoc]

theorem armed_advance_early {α : Type} {d : Debounced α} {a : α} (h : Armed d a) (dt : ℕ)
    (hdt : dt < d.wait) : (d.advance dt).invoked = d.invoked := by
  obtain ⟨i, hp, -⟩ := h
  have hnd : ¬ d.now + d.wait ≤ d.now + dt := by omega
  simp [Debounced.advance, hp, hnd]

theorem armed_advance_late {α : Type} {d : Debounced α} {a : α} (h : Armed d a) (dt : ℕ)
    (hdt : d.wait ≤ dt) :
    (d.advance dt).invoked = d.invoked ++ [(d.now + d.wait, a)] ∧ (d.advance dt).pending = [] := by
  obtain ⟨i, hp, -⟩ := h
  have hnd : d.now + d.wait ≤ d.now + dt := by omega
  simp [Debounced.advance, hp, hnd]

theorem advance_idle {α : Type} (d : Debounced α) (hp : d.pending = []) (dt : ℕ) :
    (d.advance dt).invoked = d.invoked := by
  simp [Debounced.advance, hp]

theorem resize_construct (cw0 ch0 : ℚ) (opts : Options) (rnd : ℕ → ℚ) (cw ch : ℚ) :
    resize (construct (World.init [Element.box cw0 ch0]) 0 opts rnd) 0 cw ch =
      notifiedPage cw0 ch0 opts rnd cw ch 1 0 := by
  rw [construct_init]
  rfl

theorem notifiedPage_step (cw0 ch0 : ℚ) (opts : Options) (rnd : ℕ → ℚ) (cw ch : ℚ)
    (id now gap : ℕ) (hg : gap < debounceWait) (cw2 ch2 : ℚ) :
    resize (advance (notifiedPage cw0 ch0 opts rnd cw ch id now) gap) 0 cw2 ch2 =
      notifiedPage cw0 ch0 opts rnd cw2 ch2 (id + 1) (now + gap) := by
  have hnd : ¬ now + debounceWait ≤ now + gap := by omega
  simp [resize, advance, notifiedPage, hnd, World.updElement, modifyAt, Utils.debounce,
    World.updObserver, List.range, List.range.loop]

theorem notifiedPage_burst (cw0 ch0 : ℚ) (opts : Options) (rnd : ℕ → ℚ) :
    ∀ (rest : List (ℕ × ℚ × ℚ)) (size : ℚ × ℚ) (id now : ℕ),
      (∀ c ∈ rest, c.1 < debounceWait) →
      resizeBurst (notifiedPage cw0 ch0 opts rnd size.1 size.2 id now) 0 rest =
        notifiedPage cw0 ch0 opts rnd (lastArgs size rest).1 (lastArgs size rest).2
          (id + rest.length) (now + (rest.map Prod.fst).sum)
  | [], _, _, _, _ => rfl
  | c :: rest, size, id, now, hg => by
    rw [resizeBurst, notifiedPage_step _ _ _ _ _ _ _ _ _ (hg c (List.mem_cons_self c rest)),
      notifiedPage_burst cw0 ch0 opts rnd rest c.2 (id + 1) (now + c.1)
        (fun x hx => hg x (List.mem_cons_of_mem c hx))]
    simp only [lastArgs, List.length_cons, List.map_cons, List.sum_cons]
    congr 1 <;> omega

theorem notifiedPage_early (cw0 ch0 : ℚ) (opts : Options) (rnd : ℕ → ℚ) (cw ch : ℚ)
    (id now dt : ℕ) (hdt : dt < debounceWait) :
    (notifiedPage cw0 ch0 opts rnd cw ch id now).dueTimers dt = [] ∧
      (advance (notifiedPage cw0 ch0 opts rnd cw ch id now) dt).canvasSizes = [(cw0, ch0)] := by
  have hnd : ¬ now + debounceWait ≤ now + dt := by omega
  constructor
  · simp [World.dueTimers, notifiedPage, hnd]
  · simp [advance, notifiedPage, hnd, World.canvasSizes]

theorem notifiedPage_late (cw0 ch0 : ℚ) (opts : Options) (rnd : ℕ → ℚ) (cw ch : ℚ)
    (id now dt : ℕ) (hdt : debounceWait ≤ dt) :
    (notifiedPage cw0 ch0 opts rnd cw ch id now).dueTimers dt =
        [{ id := id, due := now + debounceWait, observer := 0 }] ∧
      (advance (notifiedPage cw0 ch0 opts rnd cw ch id now) dt).canvasSizes = [(cw, ch)] ∧
      (advance (notifiedPage cw0 ch0 opts rnd cw ch id now) dt).timers = [] := by
  have hnd : now + debounceWait ≤ now + dt := by omega
  refine ⟨?_, ?_, ?_⟩
  · simp [World.dueTimers, notifiedPage, hnd]
  · simp [advance, notifiedPage, hnd, World.canvasSizes, resizeCanvas, World.updField, modifyAt]
  · simp [advance, notifiedPage, hnd, resizeCanvas, World.updField, modifyAt]

/-- C13: let `g = Utils.debounce(func, wait)` (in `SizeSensor`, `wait` is the
default 30) be in a state `d0` with no timer pending.  A burst of calls of `g`,
the first with arguments `a0` and each further one less than `wait` after the
previous one, calls `func` not at all during the burst nor before `wait` has
passed since the last call, and then exactly once: with the arguments of the last
call, by the timer due `wait` after the last call, and never again.  Through
`SizeSensor.observe(element, callback)` each such call is one call
`callback(element)`; on a page with one field, a burst of size changes of the
container fires one timer, which sets the canvas once, to the last size. -/
theorem C13_debounce_coalesces_a_burst {α : Type} (d0 : Debounced α)
    (hidle : d0.pending = []) (a0 : α) (rest : List (ℕ × α))
    (hgap : ∀ c ∈ rest, c.1 < d0.wait) :
    debounceWait = 30 ∧
      ((d0.call a0).burst rest).invoked = d0.invoked ∧
      (∀ dt, dt < d0.wait → (((d0.call a0).burst rest).advance dt).invoked = d0.invoked) ∧
      (∀ dt, d0.wait ≤ dt →
        (((d0.call a0).burst rest).advance dt).invoked =
          d0.invoked ++ [(d0.now + (rest.map Prod.fst).sum + d0.wait, lastArgs a0 rest)] ∧
        (((d0.call a0).burst rest).advance dt).pending = [] ∧
        (∀ dt2,
          ((((d0.call a0).burst rest).advance dt).advance dt2).invoked =
            d0.invoked ++ [(d0.now + (rest.map Prod.fst).sum + d0.wait, lastArgs a0 rest)]) ∧
        ∀ element : ℕ,
          SizeSensor.callbackCalls element (((d0.call a0).burst rest).advance dt) =
            SizeSensor.callbackCalls element d0 ++
              [(d0.now + (rest.map Prod.fst).sum + d0.wait, element)]) ∧
      ∀ (cw0 ch0 : ℚ) (opts : Options) (rnd : ℕ → ℚ) (size : ℚ × ℚ)
        (sizes : List (ℕ × ℚ × ℚ)), (∀ c ∈ sizes, c.1 < debounceWait) →
        (∀ dt, dt < debounceWait →
          (resizeBurst (resize (construct (World.init [Element.box cw0 ch0]) 0 opts rnd) 0
            size.1 size.2) 0 sizes).dueTimers dt = [] ∧
          (advance (resizeBurst (resize (construct (World.init [Element.box cw0 ch0]) 0 opts
            rnd) 0 size.1 size.2) 0 sizes) dt).canvasSizes = [(cw0, ch0)]) ∧
        ∀ dt, debounceWait ≤ dt →
          ((resizeBurst (resize (construct (World.init [Element.box cw0 ch0]) 0 opts rnd) 0
            size.1 size.2) 0 sizes).dueTimers dt).length = 1 ∧
          (advance (resizeBurst (resize (construct (World.init [Element.box cw0 ch0]) 0 opts
            rnd) 0 size.1 size.2) 0 sizes) dt).canvasSizes = [lastArgs size sizes] ∧
          (advance (resizeBurst (resize (construct (World.init [Element.box cw0 ch0]) 0 opts
            rnd) 0 size.1 size.2) 0 sizes) dt).timers = [] := by
  obtain ⟨harm0, hinv0, hwait0, hnow0⟩ := armed_call_of_idle d0 hidle a0
  obtain ⟨harm, hinv, hwait, hnow⟩ :=
    armed_burst rest (d0.call a0) a0 harm0 (by rw [hwait0]; exact hgap)
  rw [hinv0] at hinv
  rw [hwait0] at hwait
  rw [hnow0] at hnow
  refine ⟨rfl, hinv, ?_, ?_, ?_⟩
  · intro dt hdt
    rw [armed_advance_early harm dt (by rw [hwait]; exact hdt), hinv]
  · intro dt hdt
    obtain ⟨h1, h2⟩ := armed_advance_late harm dt (by rw [hwait]; exact hdt)
    rw [hinv, hwait, hnow] at h1
    refine ⟨h1, h2, ?_, ?_⟩
    · intro dt2
      rw [advance_idle _ h2, h1]
    · intro element
      simp [SizeSensor.callbackCalls, h1]
  · intro cw0 ch0 opts rnd size sizes hs
    rw [resize_construct, notifiedPage_burst cw0 ch0 opts rnd sizes size 1 0 hs]
    constructor
    · intro dt hdt
      exact notifiedPage_early cw0 ch0 opts rnd _ _ _ _ dt hdt
    · intro dt hdt
      obtain ⟨h1, h2, h3⟩ := notifiedPage_late cw0 ch0 opts rnd (lastArgs size sizes).1
        (lastArgs size sizes).2 (1 + sizes.length) (0 + (sizes.map Prod.fst).sum) dt hdt
      exact ⟨by rw [h1]; rfl, h2, h3⟩

/-- Witness for C13: `wait = 30`; calls with arguments 7, 8, 9 at times 0, 10 and
39; `func` is called once, at time 69, with 9. -/
theorem C13_debounce_coalesces_a_burst_witness :
    ((((Debounced.create 30 0).call 7).burst [(10, 8), (29, 9)]).advance 30).invoked =
      [(69, 9)] :=
  ((C13_debounce_coalesces_a_burst (Debounced.create 30 0) rfl 7 [(10, 8), (29, 9)]
    (by decide)).2.2.2.1 30 (by decide)).1

/-! ## Unobserve (C14) -/

/-- The page at time 10, after a size change notified at time 0 and
`SizeSensor.unobserve` at time 10. -/
theorem unobserved_state (cw0 ch0 : ℚ) (opts : Options) (rnd : ℕ → ℚ) (cw ch : ℚ) :
    SizeSensor.unobserve (advance (resize (construct (World.init [Element.box cw0 ch0]) 0
        opts rnd) 0 cw ch) 10) 0 =
      { fields := [{ container := 0, options := opts, canvasWidth := cw0, canvasHeight := ch0,
                     particles := initParticles opts cw0 ch0 rnd,
                     mouse := { x := none, y := none }, animationFrame := some 1,
                     frames := 0, ctxLog := [] }]
        elements := [{ clientWidth := cw, clientHeight := ch, left := 0, top := 0,
                       listeners := [Listener.mk "mousemove" (Handler.mouseHandler 0),
                                     Listener.mk "mouseleave" (Handler.leaveHandler 0)],
                       children := [0] }]
        sensors := []
        observers := [{ field := 0, observing := [], timeout := some 1 }]
        timers := [{ id := 1, due := 30, observer := 0 }]
        nextTimer := 2
        now := 10
        frameRequests := [(1, 0)]
        nextHandle := 2 } := by
  rw [resize_construct]
  rfl

/-- C14 (evaluation of the code): a field is built on a fresh `cw0 × ch0`
container, the container changes to `cw × ch` at time 0, and
`SizeSensor.unobserve` is called at time 10.  The observer is disconnected and
removed from the map and later size changes call nothing, but the debounce timer
set at time 0 is still pending after `unobserve`, and at time 30 it fires and runs
the callback: the canvas is set to `cw × ch`. -/
theorem C14_pending_debounce_fires_after_unobserve (cw0 ch0 : ℚ) (opts : Options)
    (rnd : ℕ → ℚ) (cw ch cw3 ch3 : ℚ) :
    (SizeSensor.unobserve (advance (resize (construct (World.init [Element.box cw0 ch0]) 0
        opts rnd) 0 cw ch) 10) 0).sensors = [] ∧
      (SizeSensor.unobserve (advance (resize (construct (World.init [Element.box cw0 ch0]) 0
        opts rnd) 0 cw ch) 10) 0).observers.map Observer.observing = [[]] ∧
      (SizeSensor.unobserve (advance (resize (construct (World.init [Element.box cw0 ch0]) 0
        opts rnd) 0 cw ch) 10) 0).timers = [{ id := 1, due := 30, observer := 0 }] ∧
      (SizeSensor.unobserve (advance (resize (construct (World.init [Element.box cw0 ch0]) 0
        opts rnd) 0 cw ch) 10) 0).canvasSizes = [(cw0, ch0)] ∧
      (advance (SizeSensor.unobserve (advance (resize (construct
        (World.init [Element.box cw0 ch0]) 0 opts rnd) 0 cw ch) 10) 0) 20).canvasSizes =
        [(cw, ch)] ∧
      (advance (resize (advance (SizeSensor.unobserve (advance (resize (construct
        (World.init [Element.box cw0 ch0]) 0 opts rnd) 0 cw ch) 10) 0) 20) 0 cw3 ch3)
        30).canvasSizes = [(cw, ch)] := by
  rw [unobserved_state]
  exact ⟨rfl, rfl, rfl, rfl, rfl, rfl⟩

/-! ## Repeated teardown (C15) -/

theorem modifyAt_modifyAt {α : Type} (g h : α → α) :
    ∀ (n : ℕ) (l : List α), modifyAt g n (modifyAt h n l) = modifyAt (fun a => g (h a)) n l
  | n, [] => by cases n <;> rfl
  | 0, _ :: _ => rfl
  | n + 1, a :: l => by simp [modifyAt, modifyAt_modifyAt g h n l]

theorem mapGet_eq_none_iff (m : List (ℕ × ℕ)) (k : ℕ) :
    mapGet m k = none ↔ ∀ kv ∈ m, kv.1 ≠ k := by
  unfold mapGet
  simp [List.find?_eq_none]

theorem mapGet_mapDelete (m : List (ℕ × ℕ)) (k : ℕ) : mapGet (mapDelete m k) k = none := by
  rw [mapGet_eq_none_iff]
  intro kv hkv
  unfold mapDelete at hkv
  simpa using (List.mem_filter.mp hkv).2

theorem mapDelete_of_mapGet_none (m : List (ℕ × ℕ)) (k : ℕ) (h : mapGet m k = none) :
    mapDelete m k = m := by
  rw [mapGet_eq_none_iff] at h
  unfold mapDelete
  rw [List.filter_eq_self]
  intro kv hkv
  simpa using h kv hkv

/-- The page after `destroy` of an existing field, component by component. -/
theorem destroy_eq (w : World) (f : ℕ) (fld : FieldState) (hf : w.fields.get? f = some fld) :
    destroy w f =
      { fields := w.fields
        elements := modifyAt (fun el =>
            { el with
              listeners := el.listeners.filter fun l =>
                l ≠ Listener.mk "mousemove" (Handler.mouseHandler f)
              children := el.children.filter fun c => c ≠ f })
          fld.container w.elements
        sensors := mapDelete w.sensors fld.container
        observers :=
          match mapGet w.sensors fld.container with
          | some o => modifyAt (fun ob => { ob with observing := [] }) o w.observers
          | none => w.observers
        timers := w.timers
        nextTimer := w.nextTimer
        now := w.now
        frameRequests :=
          match fld.animationFrame with
          | some k => w.frameRequests.filter fun r => r.1 ≠ k
          | none => w.frameRequests
        nextHandle := w.nextHandle } := by
  have hf2 : w.fields[f]? = some fld := by
    rw [← List.get?_eq_getElem?]
    exact hf
  unfold destroy
  rw [hf]
  cases ha : fld.animationFrame <;> cases hs : mapGet w.sensors fld.container <;>
    simp [cancelAnimationFrame, SizeSensor.unobserve, removeEventListener, canvasRemove,
      World.updElement, World.updObserver, hf2, hs, ha, modifyAt_modifyAt,
      mapDelete_of_mapGet_none]

theorem destroy_idem (w : World) (f : ℕ) : destroy (destroy w f) f = destroy w f := by
  cases hf : w.fields.get? f with
  | none =>
    have h : destroy w f = w := by
      unfold destroy
      rw [hf]
    rw [h, h]
  | some fld =>
    have hf2 : (destroy w f).fields.get? f = some fld := by rw [destroy_fields, hf]
    rw [destroy_eq (destroy w f) f fld hf2, destroy_eq w f fld hf]
    simp only [mapGet_mapDelete, modifyAt_modifyAt, List.filter_filter, Bool.and_self]
    congr 1
    · exact mapDelete_of_mapGet_none _ _ (mapGet_mapDelete _ _)
    · cases fld.animationFrame <;> simp [List.filter_filter]

/-- C15: calling `destroy` a second time on a field leaves the page exactly as it
was after the first call (every step of `destroy` is total: cancelling a stale
handle, unobserving, removing an absent listener and removing a detached canvas do
nothing), and `SizeSensor.unobserve` on an element `e` that has no entry in the
sensor map changes nothing, the map included. -/
theorem C15_teardown_twice_changes_nothing (w : World) (f e : ℕ)
    (he : mapGet w.sensors e = none) :
    destroy (destroy w f) f = destroy w f ∧
      SizeSensor.unobserve w e = w ∧
      (SizeSensor.unobserve w e).sensors = w.sensors ∧
      ∀ fld, w.fields.get? f = some fld →
        mapGet (destroy w f).sensors fld.container = none ∧
        SizeSensor.unobserve (destroy w f) fld.container = destroy w f := by
  have hun : SizeSensor.unobserve w e = w := by
    unfold SizeSensor.unobserve
    rw [he]
  refine ⟨destroy_idem w f, hun, by rw [hun], ?_⟩
  intro fld hf
  have hnone : mapGet (destroy w f).sensors fld.container = none := by
    rw [destroy_eq w f fld hf]
    exact mapGet_mapDelete _ _
  refine ⟨hnone, ?_⟩
  unfold SizeSensor.unobserve
  rw [hnone]

/-- Witness for C15: a field built on a fresh 800 × 600 container (element 0);
element 7 is not watched. -/
theorem C15_teardown_twice_changes_nothing_witness :
    destroy (destroy (construct (World.init [Element.box 800 600]) 0 scenarioOptions
        fun _ => 1 / 4) 0) 0 =
        destroy (construct (World.init [Element.box 800 600]) 0 scenarioOptions
          fun _ => 1 / 4) 0 ∧
      SizeSensor.unobserve (construct (World.init [Element.box 800 600]) 0 scenarioOptions
        fun _ => 1 / 4) 7 =
        construct (World.init [Element.box 800 600]) 0 scenarioOptions fun _ => 1 / 4 :=
  have h := C15_teardown_twice_changes_nothing
    (construct (World.init [Element.box 800 600]) 0 scenarioOptions fun _ => 1 / 4) 0 7
    (by rw [construct_init]; rfl)
  ⟨h.1, h.2.1⟩

/-! ## Initial speed (C16) -/

/-- C16 (counterexample): with the default options (`velocity = 0.8`,
`speedVariation = 0.3`) and all draws equal to 1/2, the particle gets
`vx = vy = 0`: its speed is 0, below the lower end
`velocity * (1 - speedVariation/2) = 0.68` of the stated range. -/
theorem C16_counterexample_speed_below_range :
    (initParticle defaultOptions 800 600 (fun _ => 1 / 2) 0).vx = 0 ∧
      (initParticle defaultOptions 800 600 (fun _ => 1 / 2) 0).vy = 0 ∧
      defaultOptions.velocity * (1 - defaultOptions.speedVariation / 2) = 68 / 100 ∧
      (initParticle defaultOptions 800 600 (fun _ => 1 / 2) 0).vx *
          (initParticle defaultOptions 800 600 (fun _ => 1 / 2) 0).vx +
        (initParticle defaultOptions 800 600 (fun _ => 1 / 2) 0).vy *
          (initParticle defaultOptions 800 600 (fun _ => 1 / 2) 0).vy <
        (defaultOptions.velocity * (1 - defaultOptions.speedVariation / 2)) *
          (defaultOptions.velocity * (1 - defaultOptions.speedVariation / 2)) := by
  norm_num [initParticle, defaultOptions]

theorem half_sq_le (r : ℚ) (h0 : 0 ≤ r) (h1 : r < 1) : (r - 1 / 2) * (r - 1 / 2) ≤ 1 / 4 := by
  nlinarith

/-- C16 (amended): for `velocity ≥ 0`, `speedVariation ≥ 0` and draws in `[0,1)`,
the base speed `velocity * (1 + speedVariation * (r - 0.5))` of each particle lies
between `velocity * (1 - speedVariation/2)` and `velocity * (1 + speedVariation/2)`,
and the velocity components are `vx = (rx - 0.5) * baseSpeed` and
`vy = (ry - 0.5) * baseSpeed`; each component is at most `|baseSpeed|/2` in
absolute value and the squared speed `vx*vx + vy*vy` is at most `baseSpeed²/2`.
It is the base speed, not the speed of the particle, that lies in the range. -/
theorem C16_base_speed_range_and_components (opts : Options) (hv : 0 ≤ opts.velocity)
    (hs : 0 ≤ opts.speedVariation) (w h : ℚ) (rnd : ℕ → ℚ)
    (hr : ∀ k, 0 ≤ rnd k ∧ rnd k < 1) (i : ℕ) :
    opts.velocity * (1 - opts.speedVariation / 2) ≤ baseSpeed opts (rnd (6 * i)) ∧
      baseSpeed opts (rnd (6 * i)) ≤ opts.velocity * (1 + opts.speedVariation / 2) ∧
      (initParticle opts w h rnd i).vx = (rnd (6 * i + 3) - 1 / 2) * baseSpeed opts (rnd (6 * i)) ∧
      (initParticle opts w h rnd i).vy = (rnd (6 * i + 4) - 1 / 2) * baseSpeed opts (rnd (6 * i)) ∧
      |(initParticle opts w h rnd i).vx| ≤ |baseSpeed opts (rnd (6 * i))| / 2 ∧
      |(initParticle opts w h rnd i).vy| ≤ |baseSpeed opts (rnd (6 * i))| / 2 ∧
      (initParticle opts w h rnd i).vx * (initParticle opts w h rnd i).vx +
          (initParticle opts w h rnd i).vy * (initParticle opts w h rnd i).vy ≤
        baseSpeed opts (rnd (6 * i)) * baseSpeed opts (rnd (6 * i)) / 2 := by
  have hx : (initParticle opts w h rnd i).vx =
      (rnd (6 * i + 3) - 1 / 2) * baseSpeed opts (rnd (6 * i)) := rfl
  have hy : (initParticle opts w h rnd i).vy =
      (rnd (6 * i + 4) - 1 / 2) * baseSpeed opts (rnd (6 * i)) := rfl
  have habs : ∀ r : ℚ, 0 ≤ r → r < 1 → |r - 1 / 2| ≤ 1 / 2 := by
    intro r h0 h1
    rw [abs_le]
    constructor <;> linarith
  have hb2 : 0 ≤ baseSpeed opts (rnd (6 * i)) * baseSpeed opts (rnd (6 * i)) :=
    mul_self_nonneg _
  refine ⟨?_, ?_, hx, hy, ?_, ?_, ?_⟩
  · unfold baseSpeed
    have h1 : opts.speedVariation * (-(1 / 2)) ≤ opts.speedVariation * (rnd (6 * i) - 1 / 2) :=
      mul_le_mul_of_nonneg_left (by linarith [(hr (6 * i)).1]) hs
    have := mul_le_mul_of_nonneg_left h1 hv
    nlinarith
  · unfold baseSpeed
    have h1 : opts.speedVariation * (rnd (6 * i) - 1 / 2) ≤ opts.speedVariation * (1 / 2) :=
      mul_le_mul_of_nonneg_left (by linarith [(hr (6 * i)).2]) hs
    have := mul_le_mul_of_nonneg_left h1 hv
    nlinarith
  · rw [hx, abs_mul]
    have := mul_le_mul_of_nonneg_right (habs _ (hr (6 * i + 3)).1 (hr (6 * i + 3)).2)
      (abs_nonneg (baseSpeed opts (rnd (6 * i))))
    linarith
  · rw [hy, abs_mul]
    have := mul_le_mul_of_nonneg_right (habs _ (hr (6 * i + 4)).1 (hr (6 * i + 4)).2)
      (abs_nonneg (baseSpeed opts (rnd (6 * i))))
    linarith
  · rw [hx, hy]
    have e1 := mul_le_mul_of_nonneg_right
      (half_sq_le _ (hr (6 * i + 3)).1 (hr (6 * i + 3)).2) hb2
    have e2 := mul_le_mul_of_nonneg_right
      (half_sq_le _ (hr (6 * i + 4)).1 (hr (6 * i + 4)).2) hb2
    nlinarith

/-- Witness for C16: the default options, every draw equal to 1/4: the base speed
is `0.8 * (1 - 0.075) = 0.74`, inside `[0.68, 0.92]`. -/
theorem C16_base_speed_range_and_components_witness :
    (68 / 100 : ℚ) ≤ baseSpeed defaultOptions (1 / 4) ∧
      baseSpeed defaultOptions (1 / 4) ≤ 92 / 100 := by
  have h := C16_base_speed_range_and_components defaultOptions (by norm_num [defaultOptions])
    (by norm_num [defaultOptions]) 800 600 (fun _ => 1 / 4) (fun _ => by norm_num) 0
  have e1 : defaultOptions.velocity * (1 - defaultOptions.speedVariation / 2) = 68 / 100 := by
    norm_num [defaultOptions]
  have e2 : defaultOptions.velocity * (1 + defaultOptions.speedVariation / 2) = 92 / 100 := by
    norm_num [defaultOptions]
  rw [e1, e2] at h
  exact ⟨h.1, h.2.1⟩

/-! ## Symmetry of the connection test (C17) -/

/-- C17: the squared distance computed for `(p, q)` equals the one computed for
`(q, p)`, so for every threshold the test `distSq < maxDistance` gives the same
answer in both orders, and the loop body strokes a segment for `(p, q)` exactly
when it would for `(q, p)`. -/
theorem C17_connection_test_is_symmetric (opts : Options) (i j : ℕ) (p q : Point) :
    distSq p q = distSq q p ∧
      (∀ md : ℚ, distSq p q < md ↔ distSq q p < md) ∧
      ((connect opts i j p q).isSome = true ↔ (connect opts j i q p).isSome = true) := by
  have hsym : distSq p q = distSq q p := by
    unfold distSq
    ring
  refine ⟨hsym, fun md => by rw [hsym], ?_⟩
  unfold connect
  rw [hsym]
  split <;> simp

/-! ## The particle collection is fixed (C18) -/

theorem updateParticles_idsColours (opts : Options) (cw ch : ℚ) (ps : List Particle) :
    (updateParticles opts cw ch ps).map (fun p => (p.id, p.color)) =
      ps.map fun p => (p.id, p.color) := by
  unfold updateParticles
  rw [List.map_map]
  rfl

theorem updField_idsColours (w : World) (f : ℕ) (g : FieldState → FieldState)
    (hg : ∀ s, (g s).idsColours = s.idsColours) :
    (w.updField f g).idsColours = w.idsColours :=
  map_modifyAt g FieldState.idsColours hg f w.fields

theorem animate_idsColours (w : World) (f : ℕ) : (animate w f).idsColours = w.idsColours := by
  unfold animate requestAnimationFrame
  exact updField_idsColours w f animateField fun s =>
    updateParticles_idsColours s.options s.canvasWidth s.canvasHeight s.particles

theorem runFrame_idsColours (w : World) : (runFrame w).idsColours = w.idsColours := by
  unfold runFrame
  have key : ∀ (l : List (ℕ × ℕ)) (v : World),
      (l.foldl (fun acc r => animate acc r.2) v).idsColours = v.idsColours := by
    intro l
    induction l with
    | nil => intro v; rfl
    | cons r l ih =>
      intro v
      rw [List.foldl_cons, ih, animate_idsColours]
  rw [key]
  rfl

theorem resizeCanvas_idsColours (w : World) (f : ℕ) :
    (resizeCanvas w f).idsColours = w.idsColours := by
  unfold resizeCanvas
  split
  · rfl
  · split
    · rfl
    · exact updField_idsColours w f _ fun _ => rfl

theorem runHandler_idsColours (w : World) (x y : ℚ) (hd : Handler) :
    (runHandler w x y hd).idsColours = w.idsColours := by
  cases hd with
  | mouseHandler f =>
    simp only [runHandler]
    split
    · rfl
    · split
      · rfl
      · exact updField_idsColours w f _ fun _ => rfl
  | leaveHandler f =>
    simp only [runHandler]
    exact updField_idsColours w f _ fun _ => rfl

theorem dispatch_idsColours (w : World) (e : ℕ) (event : String) (x y : ℚ) :
    (dispatch w e event x y).idsColours = w.idsColours := by
  unfold dispatch
  split
  · rfl
  · have key : ∀ (l : List Listener) (v : World),
        (l.foldl (fun acc l => runHandler acc x y l.handler) v).idsColours = v.idsColours := by
      intro l
      induction l with
      | nil => intro v; rfl
      | cons a l ih =>
        intro v
        rw [List.foldl_cons, ih, runHandler_idsColours]
    rw [key]

theorem debounce_fields (w : World) (o : ℕ) : (Utils.debounce w o).fields = w.fields := by
  unfold Utils.debounce
  split <;> rfl

theorem resize_idsColours (w : World) (e : ℕ) (cw ch : ℚ) :
    (resize w e cw ch).idsColours = w.idsColours := by
  unfold resize
  have key : ∀ (l : List ℕ) (v : World), (l.foldl Utils.debounce v).fields = v.fields := by
    intro l
    induction l with
    | nil => intro v; rfl
    | cons a l ih =>
      intro v
      rw [List.foldl_cons, ih, debounce_fields]
  unfold World.idsColours
  rw [key]
  rfl

theorem advance_idsColours (w : World) (dt : ℕ) : (advance w dt).idsColours = w.idsColours := by
  have key : ∀ (l : List Timer) (v : World),
      (l.foldl (fun acc tm =>
        match acc.observers.get? tm.observer with
        | some ob => resizeCanvas acc ob.field
        | none => acc) v).idsColours = v.idsColours := by
    intro l
    induction l with
    | nil => intro v; rfl
    | cons a l ih =>
      intro v
      rw [List.foldl_cons, ih]
      split
      · exact resizeCanvas_idsColours _ _
      · rfl
  simp only [advance]
  exact (key _ _).trans rfl

/-- C18: `initParticles` builds exactly `particleCount` particles with ids
`0 .. particleCount-1` in order, and these are the particles of a newly
constructed field; `updateParticles` keeps the length, order, ids and colours of
the collection, and so does every later operation on the page: a frame
(`animate`: update, `drawConnections`, `drawParticles`), `resizeCanvas`, a size
change with its debounced callback, a pointer move and a pointer leave.  The
point list of `drawConnections` has one more element than the collection when the
pointer is present, while the collection keeps its length: the pointer is never
stored in it. -/
theorem C18_particle_collection_is_fixed (w : World) :
    (∀ (opts : Options) (cw ch : ℚ) (rnd : ℕ → ℚ),
        (initParticles opts cw ch rnd).length = opts.particleCount ∧
        (initParticles opts cw ch rnd).map Particle.id = List.range opts.particleCount ∧
        (construct (World.init [Element.box cw ch]) 0 opts rnd).fields.map
          FieldState.particles = [initParticles opts cw ch rnd]) ∧
      (∀ (opts : Options) (cw ch : ℚ) (ps : List Particle),
        (updateParticles opts cw ch ps).length = ps.length ∧
        (updateParticles opts cw ch ps).map (fun p => (p.id, p.color)) =
          ps.map fun p => (p.id, p.color)) ∧
      (runFrame w).idsColours = w.idsColours ∧
      (∀ f, (animate w f).idsColours = w.idsColours) ∧
      (∀ f, (resizeCanvas w f).idsColours = w.idsColours) ∧
      (∀ e cw ch, (resize w e cw ch).idsColours = w.idsColours) ∧
      (∀ dt, (advance w dt).idsColours = w.idsColours) ∧
      (∀ e x y, (mousemove w e x y).idsColours = w.idsColours) ∧
      (∀ e x y, (mouseleave w e x y).idsColours = w.idsColours) ∧
      ∀ (s : FieldState) (mx : ℚ) (my : Option ℚ),
        (allPoints s.particles { x := some mx, y := my }).length = s.particles.length + 1 ∧
        (animateField { s with mouse := { x := some mx, y := my } }).particles =
          updateParticles s.options s.canvasWidth s.canvasHeight s.particles ∧
        (animateField { s with mouse := { x := some mx, y := my } }).particles.length =
          s.particles.length := by
  refine ⟨?_, ?_, runFrame_idsColours w, animate_idsColours w, resizeCanvas_idsColours w,
    resize_idsColours w, advance_idsColours w, ?_, ?_, ?_⟩
  · intro opts cw ch rnd
    refine ⟨by simp [initParticles], ?_, by rw [construct_init]; rfl⟩
    unfold initParticles
    rw [List.map_map]
    exact List.map_id _
  · intro opts cw ch ps
    exact ⟨by simp [updateParticles], updateParticles_idsColours opts cw ch ps⟩
  · intro e x y
    exact dispatch_idsColours w e _ x y
  · intro e x y
    exact dispatch_idsColours w e _ x y
  · intro s mx my
    refine ⟨by simp [allPoints], rfl, by simp [animateField, updateParticles]⟩

/-! ## Particle squares (C19) -/

theorem filterMap_rect?_stroke (l : List Segment) :
    (l.map DrawCmd.stroke).filterMap DrawCmd.rect? = [] := by
  induction l with
  | nil => rfl
  | cons a l ih => simp [DrawCmd.rect?]

theorem filterMap_rect?_fillRect (l : List Rect) :
    (l.map DrawCmd.fillRect).filterMap DrawCmd.rect? = l := by
  induction l with
  | nil => rfl
  | cons a l ih => simpa [DrawCmd.rect?] using ih

/-- C19: `drawParticles` fills exactly one rectangle per particle, in collection
order, with `fillStyle` set to that particle's colour, origin
`(x - particleSize/2, y - particleSize/2)` and width = height = `particleSize`, so
the centre of the square is `(x, y)`.  In every `animate` run the context calls
are `clearRect`, then the strokes of `drawConnections`, then these rectangles,
computed from the updated particles; the rectangles of a frame are those of the
particles alone, whether or not the pointer is present. -/
theorem C19_one_square_per_particle (opts : Options) (ps : List Particle) (s : FieldState)
    (w : World) (f : ℕ) :
    drawParticles opts ps = ps.map (fun p =>
        Rect.mk p.color (p.x - opts.particleSize / 2) (p.y - opts.particleSize / 2)
          opts.particleSize opts.particleSize) ∧
      (drawParticles opts ps).length = ps.length ∧
      (∀ (i : ℕ) (r : Rect), (drawParticles opts ps).get? i = some r →
        ∃ p, ps.get? i = some p ∧ r.fillStyle = p.color ∧
          r.width = opts.particleSize ∧ r.height = opts.particleSize ∧
          r.x + r.width / 2 = p.x ∧ r.y + r.height / 2 = p.y) ∧
      frameCmds s = [DrawCmd.clearRect 0 0 s.canvasWidth s.canvasHeight] ++
        (drawConnections s.options s.particles s.mouse).map DrawCmd.stroke ++
        (drawParticles s.options s.particles).map DrawCmd.fillRect ∧
      (frameCmds s).filterMap DrawCmd.rect? = drawParticles s.options s.particles ∧
      (animateField s).ctxLog = s.ctxLog ++
        frameCmds { s with
          particles := updateParticles s.options s.canvasWidth s.canvasHeight s.particles } ∧
      (animate w f).fields.get? f = (w.fields.get? f).map animateField := by
  refine ⟨rfl, by simp [drawParticles], ?_, rfl, ?_, rfl, ?_⟩
  rotate_right
  · unfold animate requestAnimationFrame
    simp only [World.updField]
    exact get?_modifyAt_same animateField f w.fields
  · intro i r hr
    unfold drawParticles at hr
    simp only [List.get?_eq_getElem?, List.getElem?_map, Option.map_eq_some'] at hr
    obtain ⟨p, hp, rfl⟩ := hr
    refine ⟨p, by rw [List.get?_eq_getElem?]; exact hp, rfl, rfl, rfl, ?_, ?_⟩
    · show p.x - opts.particleSize / 2 + opts.particleSize / 2 = p.x
      ring
    · show p.y - opts.particleSize / 2 + opts.particleSize / 2 = p.y
      ring
  · unfold frameCmds
    rw [List.filterMap_append, List.filterMap_append, filterMap_rect?_stroke,
      filterMap_rect?_fillRect]
    rfl

/-! ## Positive stroke widths (C20) -/

theorem distSq_nonneg (p q : Point) : 0 ≤ distSq p q := by
  unfold distSq
  exact add_nonneg (mul_self_nonneg _) (mul_self_nonneg _)

/-- C20: whenever `drawConnections` strokes a segment, `maxDistance > 0` (the
squared distance is `≥ 0` and passed the test `distSq < maxDistance`), so
`distSq/maxDistance` does not divide by zero; when moreover `lineWidth > 0`, the
width of every stroked segment is strictly positive and at most `lineWidth`; and
when `maxDistance ≤ 0` nothing is stroked. -/
theorem C20_drawn_segments_have_positive_width (opts : Options) (ps : List Particle)
    (m : Mouse) :
    (∀ s ∈ drawConnections opts ps m, 0 < opts.maxDistance ∧
        ∃ p1 p2, (allPoints ps m).get? s.i = some p1 ∧ (allPoints ps m).get? s.j = some p2 ∧
          0 ≤ distSq p1 p2 ∧ distSq p1 p2 < opts.maxDistance ∧
          s.lineWidth = opts.lineWidth * (1 - distSq p1 p2 / opts.maxDistance)) ∧
      (0 < opts.lineWidth →
        ∀ s ∈ drawConnections opts ps m, 0 < s.lineWidth ∧ s.lineWidth ≤ opts.lineWidth) ∧
      (opts.maxDistance ≤ 0 → drawConnections opts ps m = []) := by
  have key : ∀ s ∈ drawConnections opts ps m, 0 < opts.maxDistance ∧
      ∃ p1 p2, (allPoints ps m).get? s.i = some p1 ∧ (allPoints ps m).get? s.j = some p2 ∧
        0 ≤ distSq p1 p2 ∧ distSq p1 p2 < opts.maxDistance ∧
        s.lineWidth = opts.lineWidth * (1 - distSq p1 p2 / opts.maxDistance) := by
    intro s hs
    obtain ⟨-, p1, p2, h1, h2, hc⟩ := mem_connectAll.mp hs
    obtain ⟨hd, -, -, -, -, -, -, hw⟩ := connect_some hc
    exact ⟨lt_of_le_of_lt (distSq_nonneg p1 p2) hd, p1, p2, h1, h2, distSq_nonneg p1 p2, hd, hw⟩
  refine ⟨key, ?_, ?_⟩
  · intro hl s hs
    obtain ⟨hm, p1, p2, -, -, h0, hd, hw⟩ := key s hs
    have hq0 : 0 ≤ distSq p1 p2 / opts.maxDistance := div_nonneg h0 hm.le
    have hq1 : distSq p1 p2 / opts.maxDistance < 1 := (div_lt_one hm).mpr hd
    rw [hw]
    constructor
    · exact mul_pos hl (by linarith)
    · nlinarith
  · intro hm
    rw [List.eq_nil_iff_forall_not_mem]
    intro s hs
    exact absurd (key s hs).1 (not_lt.mpr hm)

/-- Witness for C20: two particles ten units apart under the default options
(`lineWidth = 1`, `maxDistance = 6000`): every stroked segment has a width in
`(0, 1]`. -/
theorem C20_drawn_segments_have_positive_width_witness :
    ∀ s ∈ drawConnections defaultOptions blankPaletteParticles { x := none, y := none },
      0 < s.lineWidth ∧ s.lineWidth ≤ defaultOptions.lineWidth :=
  (C20_drawn_segments_have_positive_width defaultOptions blankPaletteParticles
    { x := none, y := none }).2.1 (by norm_num [defaultOptions])

end ParticleBackground
